import Mathlib

/-!
Verification development for the rule-based HTTP-to-graph ingestion pipeline
(`src/parsers/http_parser.py`, `src/parsers/yaml_rule_parser.py`,
`src/graph_db/rule_based_loader.py`, `src/models/http_models.py`).

The Python code is shallowly embedded: pure functions become Lean functions,
the loader's per-user table becomes explicit state passing, and the Neo4j
store becomes an explicit `Store` value with MERGE semantics.  Python standard
library facilities that the repository merely calls (regular-expression
matching, `urllib.parse`, `json.loads`, `base64` JWT decoding,
`datetime.fromisoformat`, the process-wide `hash`) are abstracted as function
parameters collected in `PyEnv` / pattern structures; everything the
repository itself computes is translated directly from the source.
-/

/-- A Neo4j property value (the scalar shapes the pipeline actually stores:
strings, integers, booleans, and `None`). -/
inductive Value where
  | str (s : String)
  | int (n : Int)
  | bool (b : Bool)
  | null
deriving DecidableEq, Repr

/-- A property bag, modelling a Python dict built by insertion (keys unique
by construction in this code base). -/
abbrev Props := List (String × Value)

/-- A draft graph node as produced by `YAMLRuleBasedParser`
(`{id, labels, properties}`). -/
structure GNode where
  id : String
  labels : List String
  props : Props
deriving DecidableEq, Repr

/-- A draft relationship as produced by the parser and loader
(`{source_id, target_id, type, properties}`). -/
structure GRel where
  source_id : String
  target_id : String
  rtype : String
  props : Props
deriving DecidableEq, Repr

/-- A parsed JSON value (the shape `json.loads` can return and the
body-field recursion walks). -/
inductive Json where
  | obj (fields : List (String × Json))
  | arr (elems : List Json)
  | str (s : String)
  | num (n : Int)
  | bool (b : Bool)
  | null

/-- Python truthiness of a body value (`if not http_request.body`). -/
def Json.falsy : Json → Bool
  | .obj fs => fs.isEmpty
  | .arr es => es.isEmpty
  | .str s => s = ""
  | .num n => n = 0
  | .bool b => !b
  | .null => true

/-- Whether the value is a `dict` (`isinstance(value, dict)`). -/
def Json.isObj : Json → Bool
  | .obj _ => true
  | _ => false

/-- Whether the value is a `dict` or a `list`
(`isinstance(value, (dict, list))`). -/
def Json.isObjOrArr : Json → Bool
  | .obj _ => true
  | .arr _ => true
  | _ => false

/-- First-occurrence association lookup, modelling Python `dict.get` on the
insertion-ordered dicts this code builds (keys are unique by construction). -/
def lookupAssoc {α : Type} (l : List (String × α)) (k : String) : Option α :=
  (l.find? (fun p => p.1 = k)).map (fun p => p.2)

/-- Python `d[k] = v` on a dict: overwrite the existing key in place,
otherwise append. -/
def dictInsert {α : Type} : List (String × α) → String → α → List (String × α)
  | [], k, v => [(k, v)]
  | (k', v') :: rest, k, v =>
    if k' = k then (k, v) :: rest else (k', v') :: dictInsert rest k v

/-- Python dict `.get(k)` on a property bag. -/
def getProp (ps : Props) (k : String) : Option Value :=
  lookupAssoc ps k

/-- Retrieve a string-valued property (all properties read back by the
loader are stored as strings by the parser). -/
def getStrProp (ps : Props) (k : String) : Option String :=
  match getProp ps k with
  | some (.str s) => some s
  | _ => none

/-- `properties.get(k, d)` for a string-valued property. -/
def getStrPropD (ps : Props) (k : String) (d : String) : String :=
  (getStrProp ps k).getD d

/-- Whether `sub` occurs in `l` (worker for the Python `in` test). -/
def containsSubAux (sub : List Char) : List Char → Bool
  | [] => sub.isEmpty
  | c :: rest => sub.isPrefixOf (c :: rest) || containsSubAux sub rest

/-- Python `sub in s` substring test. -/
def containsSub (s sub : String) : Bool :=
  containsSubAux sub.data s.data

/-- Python `s.startswith(pre)`. -/
def strStartsWith (s pre : String) : Bool :=
  pre.data.isPrefixOf s.data

/-- Python `s.upper()` (ASCII case mapping, as used on HTTP methods and
resource type names). -/
def strToUpper (s : String) : String :=
  ⟨s.data.map Char.toUpper⟩

/-- Python `s.strip()`: whitespace removed from both ends. -/
def strTrim (s : String) : String :=
  ⟨((s.data.dropWhile Char.isWhitespace).reverse.dropWhile
      Char.isWhitespace).reverse⟩

/-- Splitting on a single separator character, keeping empty pieces
(Python `s.split(c)` with no limit). -/
def splitChar (sep : Char) : List Char → List Char → List (List Char)
  | [], cur => [cur.reverse]
  | c :: rest, cur =>
    if c = sep then cur.reverse :: splitChar sep rest []
    else splitChar sep rest (c :: cur)

/-- Python `s.split(sep)` for a one-character separator. -/
def strSplitChar (sep : Char) (s : String) : List String :=
  (splitChar sep s.data []).map String.mk

/-- Splitting on the two-character CRLF separator, keeping empty pieces
(Python `raw.split('\r\n')`). -/
def splitCRLF : List Char → List Char → List (List Char)
  | [], cur => [cur.reverse]
  | '\r' :: '\n' :: rest, cur => cur.reverse :: splitCRLF rest []
  | c :: rest, cur => splitCRLF rest (c :: cur)

/-- Python `raw.split('\r\n')`. -/
def strSplitCRLF (s : String) : List String :=
  (splitCRLF s.data []).map String.mk

/-- Python `s or d` for an optional string: the string if present and
non-empty (truthy), otherwise the default. -/
def pyOr (a : Option String) (d : String) : String :=
  match a with
  | some s => if s = "" then d else s
  | none => d

/-- Truthiness of an optional string (`if user_id:` after `str(...)`). -/
def strTruthy (a : Option String) : Bool :=
  match a with
  | some s => s ≠ ""
  | none => false

/-! ## HTTP message parser (`src/parsers/http_parser.py`) -/

/-- Python `s.split(' ', 2)`: at most two splits, the remainder re-joined. -/
def splitMax2 (s : String) : List String :=
  match strSplitChar ' ' s with
  | p0 :: p1 :: rest =>
    if rest.isEmpty then [p0, p1] else [p0, p1, String.intercalate " " rest]
  | parts => parts

/-- Python `line.split(':', 1)`. -/
def splitOnceColon (l : String) : String × String :=
  match strSplitChar ':' l with
  | a :: rest => (a, String.intercalate ":" rest)
  | [] => (l, "")

/-- The header-consuming loop of `HTTPParser.parse_request`: walks
`lines[1:]` with 1-based index `i`, stops at the first blank line returning
`body_start = i + 1`, and returns `body_start = 0` when no blank line occurs
(Python initialises `body_start = 0` before the loop). -/
def headerLoop : List String → Nat → List (String × String) →
    List (String × String) × Nat
  | [], _, acc => (acc, 0)
  | l :: rest, i, acc =>
    if l = "" then (acc, i + 1)
    else
      let acc' :=
        if containsSub l ":" then
          let kv := splitOnceColon l
          dictInsert acc (strTrim kv.1) (strTrim kv.2)
        else acc
      headerLoop rest (i + 1) acc'

/-- The parsed request model (`src/models/http_models.py`, `HTTPRequest`). -/
structure HTTPRequest where
  method : String
  path : String
  version : String
  headers : List (String × String)
  body : Option Json
  raw : String
  timestamp : String

/-- `HTTPRequest.url`: full URL from the Host header and path. -/
def HTTPRequest.url (r : HTTPRequest) : String :=
  let host := (lookupAssoc r.headers "Host").getD "unknown"
  let proto :=
    if lookupAssoc r.headers "X-Forwarded-Proto" = some "https"
    then "https" else "http"
  proto ++ "://" ++ host ++ r.path

/-- `HTTPRequest.protocol` (the HTTP version string). -/
def HTTPRequest.protocol (r : HTTPRequest) : String := r.version

/-- The pieces of `urlparse` output the parser reads. -/
structure UrlParts where
  path : String
  query : String
  netloc : String

/-- Abstracted Python standard-library facilities used by the pipeline.
Every theorem below quantifies over this environment, and witnesses
instantiate it with concrete executable functions. -/
structure PyEnv where
  /-- `hash(s)` (deterministic within one process run). -/
  pyHash : String → Int
  /-- `urllib.parse.urlparse` restricted to the fields read. -/
  urlparse : String → UrlParts
  /-- `urllib.parse.parse_qs` (every value list it produces is non-empty). -/
  parseQs : String → List (String × List String)
  /-- `str(...)` rendering of a decoded JSON value. -/
  pyStr : Json → String
  /-- `_decode_jwt_payload`: base64url + JSON decoding of the middle JWT
  segment; `none` models every failure path of that helper. -/
  decodeJwt : String → Option (List (String × Json))
  /-- `datetime.fromisoformat(ts.replace('Z', '+00:00'))` rendered as epoch
  seconds; `none` models an unparsable timestamp. -/
  parseTs : String → Option Int
  /-- `json.loads`; `none` models `json.JSONDecodeError`. -/
  jsonParse : String → Option Json

/-- `HTTPParser._parse_body`. -/
def parseBodyRaw (env : PyEnv) (bodyRaw contentType : String) : Option Json :=
  if bodyRaw = "" ∨ strTrim bodyRaw = "" then none
  else if containsSub contentType "application/json" then
    match env.jsonParse bodyRaw with
    | some j => some j
    | none => some (.str bodyRaw)
  else some (.str bodyRaw)

/-- `HTTPParser.parse_request`: `none` models the `ValueError` raised when
the start line does not split into three parts. -/
def parse_http_request (env : PyEnv) (raw timestamp : String) :
    Option HTTPRequest :=
  let lines := strSplitCRLF raw
  let requestLine := lines.headD ""
  match splitMax2 requestLine with
  | [method, path, version] =>
    let hs := headerLoop lines.tail 1 []
    let headers := hs.1
    let bodyStart := hs.2
    let bodyRaw :=
      if bodyStart < lines.length
      then String.intercalate "\r\n" (lines.drop bodyStart)
      else ""
    let body := parseBodyRaw env bodyRaw ((lookupAssoc headers "Content-Type").getD "")
    some ⟨method, path, version, headers, body, raw, timestamp⟩
  | _ => none

/-! ## Rule set (`config/parsing_rules.yaml` as loaded by
`YAMLRuleBasedParser`) -/

/-- A compiled regular-expression pattern, abstracted: `valid = false`
models a pattern whose compilation raises `re.error` (such a rule is logged
and skipped), and `test` models whether the regex matches the given string
(`re.search` with `IGNORECASE` for parameter patterns, `re.match` for
endpoint patterns — the anchoring is part of the abstract function). -/
structure RePattern where
  valid : Bool
  test : String → Bool

/-- One entry of the `parameter_patterns` rule section (a semantic type with
its regex pattern list), in declaration order. -/
structure ParamTypeConfig where
  ptype : String
  description : String
  patterns : List RePattern

/-- One entry of the `header_patterns` rule section. -/
structure HeaderCategory where
  category : String
  headers : List String
  is_sensitive : Bool
  description : String
deriving DecidableEq, Repr

/-- One entry of the `endpoint_patterns` rule list. -/
structure EndpointPatternConfig where
  pattern : RePattern
  etype : String
  requires_auth : Bool

/-- A cookie extraction pattern: its literal text (tested for the
substrings `userId` / `user_id` / `username`) plus its abstracted
`re.search(...).group(1)` behaviour; `capture = none` models both a
non-match and an invalid regex (`except re.error: continue`). -/
structure CookiePattern where
  text : String
  capture : String → Option String

/-- The `user_extraction.jwt` rule sub-section. -/
structure JwtConfig where
  enabled : Bool
  headerPre : String
  user_id_claims : List String
  username_claims : List String

/-- The `user_extraction.cookie` rule sub-section. -/
structure CookieConfig where
  enabled : Bool
  patterns : List CookiePattern

/-- The `user_extraction` rule section (absent sub-sections are `none`). -/
structure UserExtraction where
  jwt : Option JwtConfig
  cookie : Option CookieConfig

/-- One entry of `resource_extraction.url_patterns`: `capture` models
`re.match(pattern, path)` followed by `match.group(id_group)`, returning
`none` on a non-match, an invalid regex, or an out-of-range group
(`except (re.error, IndexError): continue`). -/
structure UrlPatternConfig where
  capture : String → Option String
  resource_type : String

/-- The `resource_extraction` rule section. -/
structure ResourceExtraction where
  url_patterns : List UrlPatternConfig
  parameter_patterns : List (String × List String)

/-- The loaded rule document.  `nodeTemplates` gives each template's
`additional_labels` list (a template absent from the document is modelled as
contributing `[]`; the claims quantify over rule documents of the shape the
parser requires). -/
structure RuleSet where
  nodeTemplates : String → List String
  parameter_patterns : List ParamTypeConfig
  header_patterns : List HeaderCategory
  endpoint_patterns : List EndpointPatternConfig
  user_extraction : Option UserExtraction
  resource_extraction : Option ResourceExtraction

/-! ## Classifier (`YAMLRuleBasedParser._classify_parameter`,
`_classify_header`, endpoint classification) -/

/-- A classification result (`{'type': ..., 'description': ...}`). -/
structure Classification where
  ctype : String
  description : String
deriving DecidableEq, Repr

/-- Whether some pattern of the list matches the name (the inner
`for pattern in config['patterns']` loop: an invalid pattern is skipped,
a matching valid one returns). -/
def matchesAnyPattern (pats : List RePattern) (name : String) : Bool :=
  pats.any (fun p => p.valid && p.test name)

/-- The `for param_type, config in param_patterns.items()` loop of
`_classify_parameter`: declaration order, skipping `GENERIC`, first
matching pattern wins. -/
def classify_parameter_aux : List ParamTypeConfig → String → Option Classification
  | [], _ => none
  | c :: rest, name =>
    if c.ptype = "GENERIC" then classify_parameter_aux rest name
    else if matchesAnyPattern c.patterns name then
      some ⟨c.ptype, c.description⟩
    else classify_parameter_aux rest name

/-- The description of the configured `GENERIC` fallback type (the source
indexes `param_patterns['GENERIC']`; rule documents accepted by the parser
carry this section). -/
def genericDescription (cfg : RuleSet) : String :=
  ((cfg.parameter_patterns.find? (fun c => c.ptype = "GENERIC")).map
    (fun c => c.description)).getD ""

/-- `_classify_parameter` (its `param_value` argument is unused by the
source, so it is omitted here). -/
def classify_parameter (cfg : RuleSet) (name : String) : Classification :=
  match classify_parameter_aux cfg.parameter_patterns name with
  | some c => c
  | none => ⟨"GENERIC", genericDescription cfg⟩

/-- `_classify_header`: first category whose exact header-name list
contains the name; `none` for an unmatched header. -/
def classify_header (cfg : RuleSet) (headerName : String) :
    Option HeaderCategory :=
  cfg.header_patterns.find? (fun c => c.headers.contains headerName)

/-- Endpoint classification inside `_create_endpoint_node`: first
endpoint pattern whose regex matches the path wins (an invalid regex is
skipped); no match falls back to `GENERIC` with `requires_auth = False`. -/
def classify_endpoint (cfg : RuleSet) (path : String) : String × Bool :=
  match cfg.endpoint_patterns.find? (fun pc => pc.pattern.valid && pc.pattern.test path) with
  | some pc => (pc.etype, pc.requires_auth)
  | none => ("GENERIC", false)

/-! ## Graph mapper (`YAMLRuleBasedParser.parse_request` and helpers) -/

/-- `_create_request_node`. -/
def create_request_node (env : PyEnv) (cfg : RuleSet) (req : HTTPRequest) :
    GNode :=
  let nodeId := "request_" ++
    toString (env.pyHash (req.url ++ req.method ++ req.timestamp))
  { id := nodeId
    labels := ["Request"] ++ cfg.nodeTemplates "Request"
    props := [("method", .str req.method), ("url", .str req.url),
              ("timestamp", .str req.timestamp),
              ("protocol", .str (if req.protocol = "" then "HTTP/1.1" else req.protocol))] }

/-- The `for idx, param_value in enumerate(param_values)` loop of
`_extract_parameters`. -/
def paramValueLoop (env : PyEnv) (cfg : RuleSet) (reqId name : String) :
    List String → Nat → List GNode × List GRel
  | [], _ => ([], [])
  | v :: vs, idx =>
    let cls := classify_parameter cfg name
    let pid := "param_" ++
      toString (env.pyHash (reqId ++ name ++ v ++ toString idx))
    let node : GNode :=
      { id := pid
        labels := ["Parameter", cls.ctype] ++ cfg.nodeTemplates "Parameter"
        props := [("name", .str name), ("value", .str v),
                  ("type", .str cls.ctype), ("location", .str "query")] }
    let rel : GRel :=
      { source_id := reqId, target_id := pid, rtype := "HAS_PARAMETER"
        props := [("position", .int idx), ("required", .bool false)] }
    let rest := paramValueLoop env cfg reqId name vs (idx + 1)
    (node :: rest.1, rel :: rest.2)

/-- The outer `for param_name, param_values in query_params.items()` loop. -/
def paramsLoop (env : PyEnv) (cfg : RuleSet) (reqId : String) :
    List (String × List String) → List GNode × List GRel
  | [] => ([], [])
  | (name, vs) :: rest =>
    let a := paramValueLoop env cfg reqId name vs 0
    let b := paramsLoop env cfg reqId rest
    (a.1 ++ b.1, a.2 ++ b.2)

/-- `_extract_parameters`. -/
def extract_parameters (env : PyEnv) (cfg : RuleSet) (reqId : String)
    (parsedUrl : UrlParts) : List GNode × List GRel :=
  paramsLoop env cfg reqId (env.parseQs parsedUrl.query)

/-- The `for idx, (header_name, header_value) in enumerate(...)` loop of
`_extract_headers` (the index advances over skipped headers too). -/
def headersLoop (env : PyEnv) (cfg : RuleSet) (reqId : String) :
    List (String × String) → Nat → List GNode × List GRel
  | [], _ => ([], [])
  | (hn, hv) :: rest, idx =>
    match classify_header cfg hn with
    | none => headersLoop env cfg reqId rest (idx + 1)
    | some c =>
      let hid := "header_" ++
        toString (env.pyHash (reqId ++ hn ++ toString idx))
      let node : GNode :=
        { id := hid
          labels := ["Header", c.category] ++ cfg.nodeTemplates "Header"
          props := [("name", .str hn), ("value", .str (hv.take 100)),
                    ("is_sensitive", .bool c.is_sensitive),
                    ("category", .str c.category)] }
      let rel : GRel :=
        { source_id := reqId, target_id := hid, rtype := "HAS_HEADER"
          props := [("order", .int idx)] }
      let rest' := headersLoop env cfg reqId rest (idx + 1)
      (node :: rest'.1, rel :: rest'.2)

/-- `_extract_headers`. -/
def extract_headers (env : PyEnv) (cfg : RuleSet) (req : HTTPRequest)
    (reqId : String) : List GNode × List GRel :=
  if req.headers.isEmpty then ([], [])
  else headersLoop env cfg reqId req.headers 0

/-- The dotted path of a body field
(`f"{prefix}.{key}" if prefix else key`). -/
def fieldPathOf (pre key : String) : String :=
  if pre = "" then key else pre ++ "." ++ key

/-- The node id of a body field (`f"field_{hash(parent_id + field_path)}"`). -/
def fieldIdOf (env : PyEnv) (parentId pre key : String) : String :=
  "field_" ++ toString (env.pyHash (parentId ++ fieldPathOf pre key))

/-- The BodyField node built for one key/value pair of
`_parse_body_fields` (value truncated to 100 characters, omitted for
nested objects and lists). -/
def mkFieldNode (env : PyEnv) (cfg : RuleSet) (parentId pre key : String)
    (value : Json) : GNode :=
  { id := fieldIdOf env parentId pre key
    labels := ["BodyField", (classify_parameter cfg key).ctype]
    props := [("name", .str key),
              ("value", if value.isObjOrArr then .null
                        else .str ((env.pyStr value).take 100)),
              ("type", .str (classify_parameter cfg key).ctype),
              ("path", .str (fieldPathOf pre key))] }

/-- The HAS_FIELD relationship built for one key of `_parse_body_fields`. -/
def mkFieldRel (env : PyEnv) (parentId pre key : String) (depth : Nat) :
    GRel :=
  { source_id := parentId, target_id := fieldIdOf env parentId pre key
    rtype := "HAS_FIELD", props := [("depth", .int depth)] }

/-- `_parse_body_fields`: recursive JSON body-field expansion.  The Python
function checks `depth > 5` once on entry of each recursive call; the
equivalent check is re-established here on every step of the key loop
(for `depth ≤ 5` the extra checks are vacuous, for `depth > 5` both return
nothing). -/
def parse_body_fields (env : PyEnv) (cfg : RuleSet) :
    List (String × Json) → String → String → Nat → List GNode × List GRel
  | fields, parentId, pre, depth =>
    if depth > 5 then ([], [])
    else
      match fields with
      | [] => ([], [])
      | (key, value) :: rest =>
        let nested :=
          match value with
          | .obj fs =>
            parse_body_fields env cfg fs (fieldIdOf env parentId pre key)
              (fieldPathOf pre key) (depth + 1)
          | _ => ([], [])
        let tailRes := parse_body_fields env cfg rest parentId pre depth
        (mkFieldNode env cfg parentId pre key value :: (nested.1 ++ tailRes.1),
         mkFieldRel env parentId pre key depth :: (nested.2 ++ tailRes.2))

/-- `_extract_body`. -/
def extract_body (env : PyEnv) (cfg : RuleSet) (req : HTTPRequest)
    (reqId : String) : List GNode × List GRel :=
  match req.body with
  | none => ([], [])
  | some body =>
    if body.falsy then ([], [])
    else
      let bodyStr := env.pyStr body
      let bodyId := "body_" ++ toString (env.pyHash (reqId ++ bodyStr))
      let contentType :=
        if req.headers.isEmpty then "unknown"
        else (lookupAssoc req.headers "Content-Type").getD "unknown"
      let node : GNode :=
        { id := bodyId
          labels := ["Body"] ++ cfg.nodeTemplates "Body"
          props := [("content_type", .str contentType),
                    ("size", .int bodyStr.length)] }
      let rel : GRel :=
        { source_id := reqId, target_id := bodyId, rtype := "HAS_BODY"
          props := [("encoding", .str (if body.isObj then "json" else "text"))] }
      let fieldRes :=
        match body with
        | .obj fs => parse_body_fields env cfg fs bodyId "" 0
        | _ => ([], [])
      (node :: fieldRes.1, rel :: fieldRes.2)

/-- `_create_endpoint_node`. -/
def create_endpoint_node (env : PyEnv) (cfg : RuleSet) (parsedUrl : UrlParts)
    (method : String) : GNode :=
  let path := if parsedUrl.path = "" then "/" else parsedUrl.path
  let cls := classify_endpoint cfg path
  let endpointId := "endpoint_" ++ method ++ "_" ++ toString (env.pyHash path)
  { id := endpointId
    labels := ["Endpoint", cls.1] ++ cfg.nodeTemplates "Endpoint"
    props := [("path", .str path), ("method", .str method),
              ("domain", .str parsedUrl.netloc), ("type", .str cls.1),
              ("requires_auth", .bool cls.2)] }

/-- The `for claim in ...claims` lookup loops of `_extract_user`:
first configured claim present in the JWT payload wins, its value rendered
with `str(...)`. -/
def firstClaim (env : PyEnv) (payload : List (String × Json)) :
    List String → Option String
  | [] => none
  | c :: rest =>
    match lookupAssoc payload c with
    | some v => some (env.pyStr v)
    | none => firstClaim env payload rest

/-- The JWT phase of `_extract_user`: returns
`(user_id, username, auth_method, token_preview)`. -/
def jwtPhase (env : PyEnv) (uc : UserExtraction) (req : HTTPRequest) :
    Option String × Option String × Option String × Option String :=
  match uc.jwt with
  | some jc =>
    if jc.enabled then
      let authHeader := (lookupAssoc req.headers "Authorization").getD ""
      if strStartsWith authHeader jc.headerPre then
        let token := authHeader.drop jc.headerPre.length
        let tokenPreview :=
          if token.length > 20 then token.take 20 ++ "..." else token
        match env.decodeJwt token with
        | some payload =>
          let uid := firstClaim env payload jc.user_id_claims
          let uname := firstClaim env payload jc.username_claims
          (uid, uname,
           if uid.isSome || uname.isSome then some "jwt" else none,
           some tokenPreview)
        | none => (none, none, none, some tokenPreview)
      else (none, none, none, none)
    else (none, none, none, none)
  | none => (none, none, none, none)

/-- The cookie phase of `_extract_user` (runs only when the JWT phase
produced no truthy `user_id`): every configured pattern is tried in order
without a break, a match setting `user_id` or `username` according to which
marker substring the pattern text contains. -/
def cookiePhase (uc : UserExtraction) (req : HTTPRequest)
    (acc : Option String × Option String × Option String) :
    Option String × Option String × Option String :=
  if strTruthy acc.1 then acc
  else
    match uc.cookie with
    | some cc =>
      if cc.enabled then
        let cookieHeader := (lookupAssoc req.headers "Cookie").getD ""
        cc.patterns.foldl
          (fun (a : Option String × Option String × Option String) p =>
            match p.capture cookieHeader with
            | some g =>
              if containsSub p.text "userId" || containsSub p.text "user_id" then
                (some g, a.2.1, some "cookie")
              else if containsSub p.text "username" then
                (a.1, some g, some "cookie")
              else a
            | none => a) acc
      else acc
    | none => acc

/-- `_extract_user`. -/
def extract_user (env : PyEnv) (cfg : RuleSet) (req : HTTPRequest)
    (reqId : String) : List GNode × List GRel :=
  match cfg.user_extraction with
  | none => ([], [])
  | some uc =>
    let j := jwtPhase env uc req
    let tokenPreview := j.2.2.2
    let r := cookiePhase uc req (j.1, j.2.1, j.2.2.1)
    let uid := r.1
    let uname := r.2.1
    let authMethod := r.2.2
    if strTruthy uid || strTruthy uname then
      let userNodeId := "user_" ++ pyOr uid (pyOr uname "")
      let node : GNode :=
        { id := userNodeId
          labels := ["User"] ++ cfg.nodeTemplates "User"
          props := [("user_id", .str (pyOr uid "unknown")),
                    ("username", .str (pyOr uname "unknown")),
                    ("auth_method", .str (pyOr authMethod "unknown")),
                    ("token_preview", .str (pyOr tokenPreview ""))] }
      let rel : GRel :=
        { source_id := reqId, target_id := userNodeId
          rtype := "AUTHENTICATED_AS"
          props := [("auth_method", .str (pyOr authMethod "unknown")),
                    ("timestamp", .str req.timestamp)] }
      ([node], [rel])
    else ([], [])

/-- The `for pattern_config in url_patterns` loop of `_extract_resources`:
first pattern whose match-and-capture succeeds wins (`break`); a non-match,
invalid regex, or out-of-range group falls through to the next pattern. -/
def urlResource (cfgs : List UrlPatternConfig) (path : String) :
    Option (String × String) :=
  match cfgs with
  | [] => none
  | c :: rest =>
    match c.capture path with
    | some rid => some (c.resource_type, rid)
    | none => urlResource rest path

/-- The `operation_map.get(method, 'access')` table (method upper-cased by
the caller). -/
def operationFor (m : String) : String :=
  if m = "GET" then "read"
  else if m = "POST" then "create"
  else if m = "PUT" then "update"
  else if m = "PATCH" then "update"
  else if m = "DELETE" then "delete"
  else "access"

/-- `if (resource_type, resource_id) not in resources_found:
resources_found[...] = 'access'` — insert-if-absent on the ordered
`(type, id) -> operation` dict. -/
def foundInsert (found : List ((String × String) × String))
    (key : String × String) : List ((String × String) × String) :=
  if found.any (fun e => e.1 = key) then found else found ++ [(key, "access")]

/-- The query-parameter scan of `_extract_resources` (a missing
`query_params[param_name]` entry cannot occur for present keys; the head of
the value list is taken as `parse_qs` yields non-empty lists). -/
def paramResourceScan (qp : List (String × List String))
    (pats : List (String × List String))
    (found : List ((String × String) × String)) :
    List ((String × String) × String) :=
  pats.foldl
    (fun f (rt : String × List String) =>
      rt.2.foldl
        (fun f pn =>
          match lookupAssoc qp pn with
          | some vs => foundInsert f (rt.1, vs.headD "")
          | none => f) f) found

/-- The full `resources_found` dict of `_extract_resources`. -/
def resourcesFound (env : PyEnv) (rc : ResourceExtraction)
    (req : HTTPRequest) (parsedUrl : UrlParts) :
    List ((String × String) × String) :=
  let path := if parsedUrl.path = "" then "/" else parsedUrl.path
  let base :=
    match urlResource rc.url_patterns path with
    | some key => [(key, operationFor (strToUpper req.method))]
    | none => []
  paramResourceScan (env.parseQs parsedUrl.query) rc.parameter_patterns base

/-- The node/relationship construction loop at the end of
`_extract_resources`. -/
def resourceNodes (cfg : RuleSet) (reqId : String) :
    List ((String × String) × String) → List GNode × List GRel
  | [] => ([], [])
  | ((rtype, rid), op) :: rest =>
    let nodeId := "resource_" ++ rtype ++ "_" ++ rid
    let node : GNode :=
      { id := nodeId
        labels := ["Resource", strToUpper rtype] ++ cfg.nodeTemplates "Resource"
        props := [("resource_id", .str rid), ("resource_type", .str rtype),
                  ("operation", .str op)] }
    let rel : GRel :=
      { source_id := reqId, target_id := nodeId, rtype := "ACCESSES"
        props := [("operation", .str op), ("access_type", .str "direct")] }
    let r := resourceNodes cfg reqId rest
    (node :: r.1, rel :: r.2)

/-- `_extract_resources`. -/
def extract_resources (env : PyEnv) (cfg : RuleSet) (req : HTTPRequest)
    (reqId : String) (parsedUrl : UrlParts) : List GNode × List GRel :=
  match cfg.resource_extraction with
  | none => ([], [])
  | some rc => resourceNodes cfg reqId (resourcesFound env rc req parsedUrl)

/-- The draft graph returned by `parse_request`. -/
structure GraphData where
  nodes : List GNode
  rels : List GRel
deriving DecidableEq, Repr

/-- `YAMLRuleBasedParser.parse_request`: assembles the draft graph in the
source's order (request node, parameters, headers, body, endpoint +
TARGETS, user + AUTHENTICATED_AS, resources + ACCESSES). -/
def parse_request (env : PyEnv) (cfg : RuleSet) (req : HTTPRequest) :
    GraphData :=
  let parsedUrl := env.urlparse req.url
  let requestNode := create_request_node env cfg req
  let p := extract_parameters env cfg requestNode.id parsedUrl
  let h := extract_headers env cfg req requestNode.id
  let b := extract_body env cfg req requestNode.id
  let endpointNode := create_endpoint_node env cfg parsedUrl req.method
  let targets : GRel :=
    { source_id := requestNode.id, target_id := endpointNode.id
      rtype := "TARGETS", props := [("timestamp", .str req.timestamp)] }
  let u := extract_user env cfg req requestNode.id
  let r := extract_resources env cfg req requestNode.id parsedUrl
  { nodes := [requestNode] ++ p.1 ++ h.1 ++ b.1 ++ [endpointNode] ++ u.1 ++ r.1
    rels := p.2 ++ h.2 ++ b.2 ++ [targets] ++ u.2 ++ r.2 }

/-! ## Temporal sequencer and loader
(`RuleBasedGraphLoader.load_request`) -/

/-- The writable per-user table `self.user_last_request`
(`user_id -> (request_id, timestamp)`), an insertion-ordered dict. -/
abbrev UserTable := List (String × (String × String))

/-- Dict lookup on the per-user table (`user_id in self.user_last_request`
plus the read). -/
def lookupT (t : UserTable) (k : String) : Option (String × String) :=
  lookupAssoc t k

/-- Dict assignment on the per-user table. -/
def updateT (t : UserTable) (k : String) (v : String × String) : UserTable :=
  dictInsert t k v

/-- The node scan of `load_request`: the loop keeps the *last* node
labelled `Request`, and the last node labelled `User` that is not labelled
`Request` (the `elif`). -/
def scanNodes (nodes : List GNode) : Option GNode × Option GNode :=
  nodes.foldl
    (fun (acc : Option GNode × Option GNode) n =>
      if n.labels.contains "Request" then (some n, acc.2)
      else if n.labels.contains "User" then (acc.1, some n)
      else acc)
    (none, none)

/-- The `time_delta` computation of `load_request`: zero when either
timestamp is empty or fails to parse, otherwise the whole-second difference
current − previous (`int((curr_dt - prev_dt).total_seconds())`). -/
def timeDelta (parseTs : String → Option Int) (curr prev : String) : Int :=
  if curr ≠ "" ∧ prev ≠ "" then
    match parseTs curr, parseTs prev with
    | some c, some p => c - p
    | _, _ => 0
  else 0

/-- The FOLLOWS relationship literal built by `load_request`. -/
def mkFollows (parseTs : String → Option Int) (prevId currId currTs prevTs : String) :
    GRel :=
  { source_id := prevId, target_id := currId, rtype := "FOLLOWS"
    props := [("time_delta", .int (timeDelta parseTs currTs prevTs)),
              ("request_sequence", .str "next")] }

/-- `RuleBasedGraphLoader.load_request`, as a function of the per-user
table: returns the updated table, the nodes created, and the relationships
created (the parser's relationships followed by the FOLLOWS relationship
when one is created). -/
def load_request (env : PyEnv) (cfg : RuleSet) (st : UserTable)
    (req : HTTPRequest) : UserTable × List GNode × List GRel :=
  let gd := parse_request env cfg req
  let scan := scanNodes gd.nodes
  match scan.1, scan.2 with
  | some rn, some un =>
    let uid? := getStrProp un.props "user_id"
    let currentTs := getStrPropD rn.props "timestamp" ""
    let newRels :=
      match uid? with
      | some uid =>
        if uid = "" then []
        else
          match lookupT st uid with
          | some (pid, pts) => [mkFollows env.parseTs pid rn.id currentTs pts]
          | none => []
      | none => []
    let st' :=
      match uid? with
      | some uid =>
        if uid = "" then st else updateT st uid (rn.id, currentTs)
      | none => st
    (st', gd.nodes, gd.rels ++ newRels)
  | _, _ => (st, gd.nodes, gd.rels)

/-- The per-request sequencer facts `load_request` acts on: the user key
(the `user_id` property of the scanned User node, when truthy), the scanned
Request node's id, and its timestamp property.  `none` exactly when
`load_request` neither creates a FOLLOWS edge nor updates the table. -/
def seqInfo (env : PyEnv) (cfg : RuleSet) (req : HTTPRequest) :
    Option (String × String × String) :=
  match scanNodes (parse_request env cfg req).nodes with
  | (some rn, some un) =>
    match getStrProp un.props "user_id" with
    | some uid =>
      if uid = "" then none
      else some (uid, rn.id, getStrPropD rn.props "timestamp" "")
    | none => none
  | _ => none

/-- `load_requests` restricted to the state/relationship stream (the
sequential batch loop): final table and all relationships created, in
order. -/
def runLoaderAux (env : PyEnv) (cfg : RuleSet) (st : UserTable) :
    List HTTPRequest → UserTable × List GRel
  | [] => (st, [])
  | r :: rs =>
    let res := load_request env cfg st r
    let rest := runLoaderAux env cfg res.1 rs
    (rest.1, res.2.2 ++ rest.2)

/-- A whole run of the loader from its freshly-initialised empty table. -/
def runLoader (env : PyEnv) (cfg : RuleSet) (reqs : List HTTPRequest) :
    UserTable × List GRel :=
  runLoaderAux env cfg [] reqs

/-! ## Graph persistence (`_create_node` / `_create_relationship`
MERGE semantics against the store) -/

/-- A node as stored in Neo4j. -/
structure StoredNode where
  id : String
  labels : List String
  props : Props
deriving DecidableEq, Repr

/-- A relationship as stored in Neo4j. -/
structure StoredRel where
  src : String
  tgt : String
  rtype : String
  props : Props
deriving DecidableEq, Repr

/-- The graph store. -/
structure Store where
  nodes : List StoredNode
  rels : List StoredRel
deriving DecidableEq, Repr

/-- `SET x += props`: each new key/value overwrites or extends. -/
def setProps (old new : Props) : Props :=
  new.foldl (fun acc kv => dictInsert acc kv.1 kv.2) old

/-- Whether a stored node matches the `MERGE (n:L1:...:Lk {id: $id})`
pattern: same id, carrying all the listed labels. -/
def nodeMatches (n : GNode) (s : StoredNode) : Bool :=
  s.id = n.id && n.labels.all (fun l => s.labels.contains l)

/-- `_create_node`: `MERGE (n:labels {id: $id}) SET n += $properties` —
update every matching node's properties, or create the node if none
matches. -/
def mergeNode (store : Store) (n : GNode) : Store :=
  if store.nodes.any (nodeMatches n) then
    { store with nodes := store.nodes.map (fun s =>
        if nodeMatches n s then { s with props := setProps s.props n.props }
        else s) }
  else
    { store with nodes := store.nodes ++ [⟨n.id, n.labels, n.props⟩] }

/-- `_create_relationship`: `MATCH (a {id}) MATCH (b {id})
MERGE (a)-[r:TYPE]->(b) [SET r += props]` — a silent no-op when either
endpoint id matches no stored node. -/
def mergeRel (store : Store) (r : GRel) : Store :=
  if store.nodes.any (fun s => s.id = r.source_id) &&
     store.nodes.any (fun s => s.id = r.target_id) then
    if store.rels.any (fun s =>
        s.src = r.source_id && s.tgt = r.target_id && s.rtype = r.rtype) then
      { store with rels := store.rels.map (fun s =>
          if s.src = r.source_id && s.tgt = r.target_id && s.rtype = r.rtype
          then { s with props := setProps s.props r.props } else s) }
    else
      { store with rels := store.rels ++ [⟨r.source_id, r.target_id, r.rtype, r.props⟩] }
  else store

/-- Persist one request's draft graph in the loader's order: all nodes,
then all relationships. -/
def applyGraph (store : Store) (nodes : List GNode) (rels : List GRel) :
    Store :=
  rels.foldl mergeRel (nodes.foldl mergeNode store)

/-- One full ingest of a request: `load_request` plus persistence. -/
def ingest (env : PyEnv) (cfg : RuleSet) (st : UserTable) (store : Store)
    (req : HTTPRequest) : UserTable × Store :=
  let r := load_request env cfg st req
  (r.1, applyGraph store r.2.1 r.2.2)

/-- Parse-then-ingest of one raw request text (`/analyze` handler path):
`none` when HTTP parsing fails, in which case nothing reaches the store. -/
def ingestRaw (env : PyEnv) (cfg : RuleSet) (st : UserTable) (store : Store)
    (raw timestamp : String) : Option (UserTable × Store) :=
  (parse_http_request env raw timestamp).map (ingest env cfg st store)

/-! ## The sequencer's critical section, split at its shared-state access
points (for the concurrency analysis of `load_request`: the table read at
lines 121-122 and the table write at line 150, with the edge emission in
between; `RuleBasedGraphLoader.__init__` installs no lock around them). -/

/-- One thread's pending sequencer operation. -/
structure SeqOp where
  key : String
  reqId : String
  ts : String

/-- The read step (`self.user_last_request[user_id]` after the `in` test). -/
def seqRead (t : UserTable) (op : SeqOp) : Option (String × String) :=
  lookupT t op.key

/-- The write-and-emit step, applied to whatever the read step observed. -/
def seqCommit (parseTs : String → Option Int) (t : UserTable) (op : SeqOp)
    (prev : Option (String × String)) : UserTable × List GRel :=
  (updateT t op.key (op.reqId, op.ts),
   match prev with
   | some (pid, pts) => [mkFollows parseTs pid op.reqId op.ts pts]
   | none => [])

/-- Serialised execution of two sequencer operations (each read-modify-write
inside one critical section). -/
def seqSerial (parseTs : String → Option Int) (t : UserTable) (a b : SeqOp) :
    UserTable × List GRel :=
  let ra := seqRead t a
  let ca := seqCommit parseTs t a ra
  let rb := seqRead ca.1 b
  let cb := seqCommit parseTs ca.1 b rb
  (cb.1, ca.2 ++ cb.2)

/-- The unserialised interleaving in which both threads read before either
writes (admissible because `load_request` holds no lock between its table
read and table write). -/
def seqRacy (parseTs : String → Option Int) (t : UserTable) (a b : SeqOp) :
    UserTable × List GRel :=
  let ra := seqRead t a
  let rb := seqRead t b
  let ca := seqCommit parseTs t a ra
  let cb := seqCommit parseTs ca.1 b rb
  (cb.1, ca.2 ++ cb.2)

/-- The FOLLOWS relationships `load_request` appends for one request (zero
or one): present exactly when the sequencer facts resolve and the user key
already has a table entry. -/
def followsOf (env : PyEnv) (cfg : RuleSet) (st : UserTable)
    (req : HTTPRequest) : List GRel :=
  match seqInfo env cfg req with
  | some (k, rid, ts) =>
    match lookupT st k with
    | some (pid, pts) => [mkFollows env.parseTs pid rid ts pts]
    | none => []
  | none => []

/-- The id/label skeleton of the stored node set (what distinguishes
"a new node was created" from "an existing node was updated"). -/
def idLab (ns : List StoredNode) : List (String × List String) :=
  ns.map (fun n => (n.id, n.labels))

/-- Whether some stored node matches the MERGE pattern for `n`. -/
def hasMatchB (ns : List StoredNode) (n : GNode) : Bool :=
  ns.any (nodeMatches n)

/-! ## Concrete instances for witnesses and counterexamples -/

/-- A concrete, collision-free-in-practice stand-in for Python's
per-process string hash. -/
def exHash (s : String) : Int :=
  s.data.foldl (fun a c => a * 31 + (c.toNat : Int)) 7

/-- A concrete timestamp parser covering the timestamps used in the
examples. -/
def exParseTs (s : String) : Option Int :=
  if s = "2024-01-01T00:00:00Z" then some 0
  else if s = "2024-01-01T00:00:10Z" then some 10
  else none

/-- A concrete standard-library environment. -/
def exEnv : PyEnv :=
  { pyHash := exHash
    urlparse := fun _ => ⟨"/", "", "unknown"⟩
    parseQs := fun _ => []
    pyStr := fun _ => ""
    decodeJwt := fun _ => none
    parseTs := exParseTs
    jsonParse := fun _ => none }

/-- A cookie rule whose pattern text names `username` only (no user id),
with `re.search('username=(.+)', h).group(1)` behaviour. -/
def exCookiePat : CookiePattern :=
  { text := "username=(.+)"
    capture := fun s =>
      if strStartsWith s "username=" ∧ s.length > 9 then some (s.drop 9)
      else none }

/-- A rule set whose user extraction is cookie-based with a username-only
pattern. -/
def exCfgU : RuleSet :=
  { nodeTemplates := fun _ => []
    parameter_patterns := [⟨"GENERIC", "generic fallback", []⟩]
    header_patterns := []
    endpoint_patterns := []
    user_extraction := some ⟨none, some ⟨true, [exCookiePat]⟩⟩
    resource_extraction := none }

/-- A minimal rule set (no user or resource extraction). -/
def exCfgMin : RuleSet :=
  { nodeTemplates := fun _ => []
    parameter_patterns := [⟨"GENERIC", "generic fallback", []⟩]
    header_patterns := []
    endpoint_patterns := []
    user_extraction := none
    resource_extraction := none }

/-- A rule set with one sensitive header category. -/
def exCfgH : RuleSet :=
  { nodeTemplates := fun _ => []
    parameter_patterns := [⟨"GENERIC", "generic fallback", []⟩]
    header_patterns := [⟨"auth", ["Authorization"], true, "authentication headers"⟩]
    endpoint_patterns := []
    user_extraction := none
    resource_extraction := none }

/-- A rule set with one non-fallback parameter type before the fallback. -/
def exCfgP : RuleSet :=
  { nodeTemplates := fun _ => []
    parameter_patterns :=
      [⟨"ID_REFERENCE", "identifier reference", [⟨true, fun n => containsSub n "id"⟩]⟩,
       ⟨"GENERIC", "generic fallback", []⟩]
    header_patterns := []
    endpoint_patterns := []
    user_extraction := none
    resource_extraction := none }

/-- A request authenticated (via cookie) as username `alice`, first
timestamp. -/
def exReqAlice : HTTPRequest :=
  { method := "GET", path := "/", version := "HTTP/1.1"
    headers := [("Cookie", "username=alice")]
    body := none, raw := "", timestamp := "2024-01-01T00:00:00Z" }

/-- A second request by `alice`, ten seconds later. -/
def exReqAliceLater : HTTPRequest :=
  { exReqAlice with timestamp := "2024-01-01T00:00:10Z" }

/-- A request authenticated (via cookie) as a different username `bob`,
ten seconds after `alice`'s request. -/
def exReqBob : HTTPRequest :=
  { method := "GET", path := "/", version := "HTTP/1.1"
    headers := [("Cookie", "username=bob")]
    body := none, raw := "", timestamp := "2024-01-01T00:00:10Z" }

/-- A minimal unauthenticated request. -/
def exReqMin : HTTPRequest :=
  { method := "GET", path := "/", version := "HTTP/1.1"
    headers := [], body := none, raw := "", timestamp := "t1" }

/-- A request with one sensitive header carrying a secret value. -/
def exReqH : HTTPRequest :=
  { method := "GET", path := "/", version := "HTTP/1.1"
    headers := [("Authorization", "secret-token-value")]
    body := none, raw := "", timestamp := "t1" }

/-- The draft graph of `alice`'s later request. -/
def exParsedA : GraphData := parse_request exEnv exCfgU exReqAliceLater

/-- The scanned Request node of that graph. -/
def exRnA : GNode := ((scanNodes exParsedA.nodes).1).getD ⟨"", [], []⟩

/-- The scanned User node of that graph. -/
def exUnA : GNode := ((scanNodes exParsedA.nodes).2).getD ⟨"", [], []⟩

/-- A pre-existing per-user table entry under the shared `unknown` key. -/
def exT0 : UserTable := [("unknown", ("request_prev", "2024-01-01T00:00:00Z"))]

/-- A JSON object nested `n` levels deep. -/
def nestJson : Nat → Json
  | 0 => .str "leaf"
  | n + 1 => .obj [("k", nestJson n)]

/-- Top-level fields of a body nested eight levels deep. -/
def exDeepFields : List (String × Json) := [("k", nestJson 7)]

/-- Thread A's pending sequencer operation (the T1 request). -/
def exOpA : SeqOp := ⟨"user1", "request_T1", "2024-01-01T00:00:00Z"⟩

/-- Thread B's pending sequencer operation (the T2 request, same user). -/
def exOpB : SeqOp := ⟨"user1", "request_T2", "2024-01-01T00:00:10Z"⟩

/-- An example resource-extraction rule: a `/api/users/{id}` URL pattern
capturing the id, plus a query-parameter table mapping `user_id` to the
`user` resource type. -/
def exRC : ResourceExtraction :=
  { url_patterns :=
      [⟨fun p => if strStartsWith p "/api/users/" ∧ p.length > 11
                 then some (p.drop 11) else none, "user"⟩]
    parameter_patterns := [("user", ["user_id"])] }

/-- An environment whose query-string parser knows the example query. -/
def exEnvR : PyEnv :=
  { exEnv with
    parseQs := fun q => if q = "user_id=42" then [("user_id", ["42"])] else [] }

/-- The parsed URL of the example resource request. -/
def exUrlR : UrlParts := ⟨"/api/users/42", "user_id=42", "h"⟩

/-- The example resource request (GET, so the operation is `read`). -/
def exReqR : HTTPRequest :=
  { method := "GET", path := "/api/users/42", version := "HTTP/1.1"
    headers := [], body := none, raw := "", timestamp := "t1" }

/-! # Theorems -/

/-! ### Dictionary and table lemmas -/

theorem lookupAssoc_dictInsert_self {α : Type} (l : List (String × α))
    (k : String) (v : α) : lookupAssoc (dictInsert l k v) k = some v := by
  induction l with
  | nil => simp [dictInsert, lookupAssoc]
  | cons p rest ih =>
    rcases p with ⟨k', v'⟩
    by_cases h : k' = k
    · simp [dictInsert, h, lookupAssoc]
    · simpa [dictInsert, h, lookupAssoc] using ih

theorem lookupAssoc_dictInsert_ne {α : Type} (l : List (String × α))
    (k k' : String) (v : α) (h : k' ≠ k) :
    lookupAssoc (dictInsert l k v) k' = lookupAssoc l k' := by
  induction l with
  | nil => simp [dictInsert, lookupAssoc, Ne.symm h]
  | cons p rest ih =>
    rcases p with ⟨k0, v0⟩
    by_cases h0 : k0 = k
    · subst h0
      simp [dictInsert, lookupAssoc, Ne.symm h]
    · by_cases h1 : k0 = k'
      · subst h1
        simp [dictInsert, lookupAssoc, h, h0]
      · simpa [dictInsert, h0, lookupAssoc, h1] using ih

theorem lookupT_updateT_self (t : UserTable) (k : String)
    (v : String × String) : lookupT (updateT t k v) k = some v :=
  lookupAssoc_dictInsert_self t k v

theorem lookupT_updateT_ne (t : UserTable) (k k' : String)
    (v : String × String) (h : k' ≠ k) :
    lookupT (updateT t k v) k' = lookupT t k' :=
  lookupAssoc_dictInsert_ne t k k' v h

/-! ### Relationship types emitted by each extractor -/

theorem paramValueLoop_rtype (env : PyEnv) (cfg : RuleSet)
    (reqId name : String) :
    ∀ (vs : List String) (idx : Nat),
      ∀ r ∈ (paramValueLoop env cfg reqId name vs idx).2,
        r.rtype = "HAS_PARAMETER" := by
  intro vs
  induction vs with
  | nil => intro idx r hr; simp [paramValueLoop] at hr
  | cons v vs ih =>
    intro idx r hr
    simp only [paramValueLoop, List.mem_cons] at hr
    rcases hr with h | h
    · rw [h]
    · exact ih (idx + 1) r h

theorem paramsLoop_rtype (env : PyEnv) (cfg : RuleSet) (reqId : String) :
    ∀ (qs : List (String × List String)),
      ∀ r ∈ (paramsLoop env cfg reqId qs).2, r.rtype = "HAS_PARAMETER" := by
  intro qs
  induction qs with
  | nil => intro r hr; simp [paramsLoop] at hr
  | cons q rest ih =>
    intro r hr
    rcases q with ⟨name, vs⟩
    simp only [paramsLoop, List.mem_append] at hr
    rcases hr with h | h
    · exact paramValueLoop_rtype env cfg reqId name vs 0 r h
    · exact ih r h

theorem headersLoop_rtype (env : PyEnv) (cfg : RuleSet) (reqId : String) :
    ∀ (hs : List (String × String)) (idx : Nat),
      ∀ r ∈ (headersLoop env cfg reqId hs idx).2, r.rtype = "HAS_HEADER" := by
  intro hs
  induction hs with
  | nil => intro idx r hr; simp [headersLoop] at hr
  | cons p rest ih =>
    intro idx r hr
    rcases p with ⟨hn, hv⟩
    rcases hc : classify_header cfg hn with _ | c
    · rw [headersLoop, hc] at hr
      exact ih (idx + 1) r hr
    · rw [headersLoop, hc] at hr
      simp only [List.mem_cons] at hr
      rcases hr with h | h
      · rw [h]
      · exact ih (idx + 1) r h

theorem parse_body_fields_rtype (env : PyEnv) (cfg : RuleSet) :
    ∀ (fields : List (String × Json)) (pid pre : String) (d : Nat),
      ∀ r ∈ (parse_body_fields env cfg fields pid pre d).2,
        r.rtype = "HAS_FIELD" := by
  intro fields pid pre d
  induction fields, pid, pre, d using parse_body_fields.induct env cfg with
  | case1 fields pid pre d hd =>
    intro r hr
    rw [parse_body_fields.eq_def] at hr
    dsimp only at hr
    rw [if_pos hd] at hr
    simp at hr
  | case2 pid pre d hd =>
    intro r hr
    rw [parse_body_fields.eq_def] at hr
    dsimp only at hr
    rw [if_neg hd] at hr
    simp at hr
  | case3 pid pre d hd key value rest ih1 ih2 =>
    intro r hr
    rw [parse_body_fields.eq_def] at hr
    dsimp only at hr
    rw [if_neg hd] at hr
    cases value
    case obj fs =>
      simp only [List.mem_cons, List.mem_append] at hr
      rcases hr with h | h | h
      · subst h; rfl
      · exact ih1 r h
      · exact ih2 r h
    all_goals
      simp only [List.mem_cons, List.mem_append, List.not_mem_nil,
        false_or] at hr
      rcases hr with h | h
      · subst h; rfl
      · exact ih2 r h

theorem extract_body_rtype (env : PyEnv) (cfg : RuleSet) (req : HTTPRequest)
    (reqId : String) :
    ∀ r ∈ (extract_body env cfg req reqId).2,
      r.rtype = "HAS_BODY" ∨ r.rtype = "HAS_FIELD" := by
  intro r hr
  rcases hb : req.body with _ | body
  · rw [extract_body, hb] at hr
    simp at hr
  · rw [extract_body, hb] at hr
    dsimp only at hr
    by_cases hf : body.falsy
    · rw [if_pos hf] at hr
      simp at hr
    · rw [if_neg hf] at hr
      rcases body with fs | es | s | n | b | _
      · simp only [List.mem_cons] at hr
        rcases hr with h | h
        · left; rw [h]
        · right; exact parse_body_fields_rtype env cfg fs _ "" 0 r h
      all_goals
        simp only [List.mem_cons, List.not_mem_nil, or_false] at hr
        left; rw [hr]

theorem extract_user_rtype (env : PyEnv) (cfg : RuleSet) (req : HTTPRequest)
    (reqId : String) :
    ∀ r ∈ (extract_user env cfg req reqId).2,
      r.rtype = "AUTHENTICATED_AS" := by
  intro r hr
  rcases hu : cfg.user_extraction with _ | uc
  · rw [extract_user, hu] at hr
    simp at hr
  · rw [extract_user, hu] at hr
    dsimp only at hr
    split at hr
    · simp only [List.mem_cons, List.not_mem_nil, or_false] at hr
      rw [hr]
    · simp at hr

theorem resourceNodes_rtype (cfg : RuleSet) (reqId : String) :
    ∀ (found : List ((String × String) × String)),
      ∀ r ∈ (resourceNodes cfg reqId found).2, r.rtype = "ACCESSES" := by
  intro found
  induction found with
  | nil => intro r hr; simp [resourceNodes] at hr
  | cons e rest ih =>
    intro r hr
    rcases e with ⟨⟨rtype, rid⟩, op⟩
    simp only [resourceNodes, List.mem_cons] at hr
    rcases hr with h | h
    · rw [h]
    · exact ih r h

theorem extract_resources_rtype (env : PyEnv) (cfg : RuleSet)
    (req : HTTPRequest) (reqId : String) (parsedUrl : UrlParts) :
    ∀ r ∈ (extract_resources env cfg req reqId parsedUrl).2,
      r.rtype = "ACCESSES" := by
  intro r hr
  rcases hc : cfg.resource_extraction with _ | rc
  · rw [extract_resources, hc] at hr
    simp at hr
  · rw [extract_resources, hc] at hr
    exact resourceNodes_rtype cfg reqId _ r hr

/-- The parser never emits a FOLLOWS relationship: every FOLLOWS edge comes
from the loader's temporal sequencer. -/
theorem parse_request_no_follows (env : PyEnv) (cfg : RuleSet)
    (req : HTTPRequest) :
    ∀ r ∈ (parse_request env cfg req).rels, r.rtype ≠ "FOLLOWS" := by
  intro r hr
  rw [parse_request] at hr
  simp only [List.mem_append, List.mem_cons, List.not_mem_nil,
    or_false] at hr
  rcases hr with ((((h | h) | h) | h) | h) | h
  · have := paramsLoop_rtype env cfg _ _ r h
    rw [this]; decide
  · have := headersLoop_rtype env cfg _ _ 0 r (by
      by_cases he : req.headers.isEmpty
      · rw [extract_headers, if_pos he] at h; simp at h
      · rw [extract_headers, if_neg he] at h; exact h)
    rw [this]; decide
  · rcases extract_body_rtype env cfg req _ r h with h' | h' <;>
      rw [h'] <;> decide
  · rw [h]; simp
  · have := extract_user_rtype env cfg req _ r h
    rw [this]; decide
  · have := extract_resources_rtype env cfg req _ _ r h
    rw [this]; decide

/-! ### Decomposition of `load_request` -/

/-- `load_request` leaves the parser's nodes untouched, appends exactly the
FOLLOWS relationships described by `followsOf`, and updates the per-user
table exactly as described by `seqInfo`. -/
theorem load_request_eq (env : PyEnv) (cfg : RuleSet) (st : UserTable)
    (req : HTTPRequest) :
    load_request env cfg st req =
      ((match seqInfo env cfg req with
        | some kt => updateT st kt.1 (kt.2.1, kt.2.2)
        | none => st),
       (parse_request env cfg req).nodes,
       (parse_request env cfg req).rels ++ followsOf env cfg st req) := by
  rw [load_request, followsOf, seqInfo]
  rcases hscan : scanNodes (parse_request env cfg req).nodes with ⟨r?, u?⟩
  rcases r? with _ | rn <;> rcases u? with _ | un <;> dsimp only
  · simp
  · simp
  · simp
  · rcases hu : getStrProp un.props "user_id" with _ | uid <;> dsimp only
    split_ifs with he
    · exact rfl
    · exact rfl

theorem timeDelta_zero (p : String → Option Int) (c pr : String)
    (h : c = "" ∨ pr = "" ∨ p c = none ∨ p pr = none) :
    timeDelta p c pr = 0 := by
  unfold timeDelta
  split_ifs with hc
  · rcases h with h | h | h | h
    · exact absurd h hc.1
    · exact absurd h hc.2
    · rcases hpr : p pr with _ | v <;> rw [h]
    · rcases hpc : p c with _ | v <;> rw [h]
  · rfl

theorem timeDelta_some (p : String → Option Int) (c pr : String)
    (tc tp : Int) (hc : c ≠ "") (hp : pr ≠ "")
    (h1 : p c = some tc) (h2 : p pr = some tp) :
    timeDelta p c pr = tc - tp := by
  unfold timeDelta
  rw [if_pos ⟨hc, hp⟩, h1, h2]

/-- C1: when a request resolves both a User node and a Request node and the
user's identifier already has an entry in the per-user last-request table,
exactly one FOLLOWS relationship is created, from the previous request node
to the current request node, carrying `time_delta` equal to the
whole-second difference of the two timestamps (zero whenever either
timestamp is missing or unparsable, without failing the request);
afterwards the table entry for that user is overwritten with the current
(request id, timestamp). -/
theorem follows_edge_per_repeat_user (env : PyEnv) (cfg : RuleSet)
    (st : UserTable) (req : HTTPRequest) (rn un : GNode)
    (uid pid pts : String)
    (hreq : (scanNodes (parse_request env cfg req).nodes).1 = some rn)
    (huser : (scanNodes (parse_request env cfg req).nodes).2 = some un)
    (huid : getStrProp un.props "user_id" = some uid)
    (hne : uid ≠ "")
    (hprev : lookupT st uid = some (pid, pts)) :
    (load_request env cfg st req).2.2.filter
        (fun r => r.rtype = "FOLLOWS") =
      [mkFollows env.parseTs pid rn.id
        (getStrPropD rn.props "timestamp" "") pts] ∧
    lookupT (load_request env cfg st req).1 uid =
      some (rn.id, getStrPropD rn.props "timestamp" "") ∧
    ((getStrPropD rn.props "timestamp" "" = "" ∨ pts = "" ∨
      env.parseTs (getStrPropD rn.props "timestamp" "") = none ∨
      env.parseTs pts = none) →
      timeDelta env.parseTs (getStrPropD rn.props "timestamp" "") pts = 0) ∧
    (∀ tc tp : Int, getStrPropD rn.props "timestamp" "" ≠ "" → pts ≠ "" →
      env.parseTs (getStrPropD rn.props "timestamp" "") = some tc →
      env.parseTs pts = some tp →
      timeDelta env.parseTs (getStrPropD rn.props "timestamp" "") pts =
        tc - tp) := by
  have hsc : scanNodes (parse_request env cfg req).nodes = (some rn, some un) := by
    rcases hx : scanNodes (parse_request env cfg req).nodes with ⟨a, b⟩
    rw [hx] at hreq huser
    simp only at hreq huser
    rw [hreq, huser]
  have hsi : seqInfo env cfg req =
      some (uid, rn.id, getStrPropD rn.props "timestamp" "") := by
    rw [seqInfo, hsc]
    dsimp only
    rw [huid]
    dsimp only
    rw [if_neg hne]
  have hfo : followsOf env cfg st req =
      [mkFollows env.parseTs pid rn.id
        (getStrPropD rn.props "timestamp" "") pts] := by
    rw [followsOf, hsi]
    dsimp only
    rw [hprev]
  refine ⟨?_, ?_, ?_, ?_⟩
  · rw [load_request_eq]
    dsimp only
    rw [List.filter_append, hfo]
    have hnil : (parse_request env cfg req).rels.filter
        (fun r => decide (r.rtype = "FOLLOWS")) = [] := by
      rw [List.filter_eq_nil_iff]
      intro r hr
      simpa using parse_request_no_follows env cfg req r hr
    rw [hnil]
    simp [mkFollows]
  · rw [load_request_eq]
    dsimp only
    rw [hsi]
    dsimp only
    exact lookupT_updateT_self st uid _
  · exact timeDelta_zero env.parseTs _ pts
  · intro tc tp hc hp h1 h2
    exact timeDelta_some env.parseTs _ pts tc tp hc hp h1 h2

/-- Witness for C1: a concrete cookie-identified request whose user key
already has a table entry produces exactly the FOLLOWS edge. -/
theorem follows_edge_per_repeat_user_witness :
    (scanNodes (parse_request exEnv exCfgU exReqAliceLater).nodes).1 =
        some exRnA ∧
    getStrProp exUnA.props "user_id" = some "unknown" ∧
    lookupT exT0 "unknown" = some ("request_prev", "2024-01-01T00:00:00Z") ∧
    (load_request exEnv exCfgU exT0 exReqAliceLater).2.2.filter
        (fun r => r.rtype = "FOLLOWS") =
      [mkFollows exEnv.parseTs "request_prev" exRnA.id
        (getStrPropD exRnA.props "timestamp" "") "2024-01-01T00:00:00Z"] :=
  ⟨by decide, by decide, by decide,
   (follows_edge_per_repeat_user exEnv exCfgU exT0 exReqAliceLater exRnA exUnA
      "unknown" "request_prev" "2024-01-01T00:00:00Z" (by decide) (by decide)
      (by decide) (by decide) (by decide)).1⟩

/-! ### The FOLLOWS chain structure over a whole run -/

theorem runLoaderAux_follows (env : PyEnv) (cfg : RuleSet) :
    ∀ (rs : List HTTPRequest) (st : UserTable) (rel : GRel),
      rel ∈ (runLoaderAux env cfg st rs).2 → rel.rtype = "FOLLOWS" →
      ∃ pre rj post k ridj tsj,
        rs = pre ++ rj :: post ∧
        seqInfo env cfg rj = some (k, ridj, tsj) ∧
        rel.target_id = ridj ∧
        ((∃ pre1 ri mid ridi tsi,
            pre = pre1 ++ ri :: mid ∧
            seqInfo env cfg ri = some (k, ridi, tsi) ∧
            rel.source_id = ridi ∧
            ∀ rm ∈ mid, (seqInfo env cfg rm).map (fun x => x.1) ≠ some k) ∨
         ((∀ rm ∈ pre, (seqInfo env cfg rm).map (fun x => x.1) ≠ some k) ∧
          ∃ ts0, lookupT st k = some (rel.source_id, ts0))) := by
  intro rs
  induction rs with
  | nil =>
    intro st rel hmem _
    simp [runLoaderAux] at hmem
  | cons r rest ih =>
    intro st rel hmem hty
    rw [runLoaderAux] at hmem
    simp only [List.mem_append] at hmem
    rcases hmem with hmem | hmem
    · rw [load_request_eq] at hmem
      dsimp only at hmem
      rw [List.mem_append] at hmem
      rcases hmem with hmem | hmem
      · exact absurd hty (parse_request_no_follows env cfg r rel hmem)
      · rw [followsOf] at hmem
        rcases hsr : seqInfo env cfg r with _ | ⟨k, rid, ts⟩
        · rw [hsr] at hmem; simp at hmem
        · rw [hsr] at hmem
          dsimp only at hmem
          rcases hl : lookupT st k with _ | ⟨pid, pts⟩
          · rw [hl] at hmem; simp at hmem
          · rw [hl] at hmem
            simp only [List.mem_singleton] at hmem
            subst hmem
            exact ⟨[], r, rest, k, rid, ts, rfl, hsr, rfl,
              Or.inr ⟨by simp, pts, hl⟩⟩
    · obtain ⟨pre, rj, post, k, ridj, tsj, hrs, hsj, htgt, hd⟩ :=
        ih (load_request env cfg st r).1 rel hmem hty
      rcases hd with ⟨pre1, ri, mid, ridi, tsi, hpre, hsi, hsrc, hmid⟩ |
        ⟨hall, ts0, hlook⟩
      · exact ⟨r :: pre, rj, post, k, ridj, tsj, by rw [hrs]; rfl, hsj, htgt,
          Or.inl ⟨r :: pre1, ri, mid, ridi, tsi, by rw [hpre]; rfl, hsi,
            hsrc, hmid⟩⟩
      · have htab : (load_request env cfg st r).1 =
            (match seqInfo env cfg r with
             | some kt => updateT st kt.1 (kt.2.1, kt.2.2)
             | none => st) := by rw [load_request_eq]
        rcases hsr : seqInfo env cfg r with _ | ⟨k0, rid0, ts0'⟩
        · rw [hsr] at htab
          rw [htab] at hlook
          refine ⟨r :: pre, rj, post, k, ridj, tsj, by rw [hrs]; rfl, hsj,
            htgt, Or.inr ⟨?_, ts0, hlook⟩⟩
          intro rm hrm
          rcases List.mem_cons.mp hrm with h | h
          · subst h; rw [hsr]; simp
          · exact hall rm h
        · rw [hsr] at htab
          dsimp only at htab
          by_cases hkk : k0 = k
          · subst hkk
            rw [htab, lookupT_updateT_self] at hlook
            have hinj : rid0 = rel.source_id ∧ ts0' = ts0 := by
              have := Option.some.inj hlook
              exact ⟨congrArg Prod.fst this, congrArg Prod.snd this⟩
            exact ⟨r :: pre, rj, post, k0, ridj, tsj, by rw [hrs]; rfl, hsj,
              htgt, Or.inl ⟨[], r, pre, rid0, ts0', rfl, hsr, hinj.1.symm,
                hall⟩⟩
          · rw [htab, lookupT_updateT_ne st k0 k _
              (fun h => hkk h.symm)] at hlook
            refine ⟨r :: pre, rj, post, k, ridj, tsj, by rw [hrs]; rfl, hsj,
              htgt, Or.inr ⟨?_, ts0, hlook⟩⟩
            intro rm hrm
            rcases List.mem_cons.mp hrm with h | h
            · subst h
              rw [hsr]
              intro hcon
              exact hkk (by simpa using hcon)
            · exact hall rm h

/-- C2 (amended): every FOLLOWS edge created over a whole run connects two
requests that both resolved a User node with the same truthy `user_id`
*property* (the chain key): the source is the request for the immediately
preceding occurrence of that key and the target the current one, with no
request carrying that key in between.  Because username-only users all
share the placeholder key `unknown`, the chain is keyed by the extracted
`user_id` value, not by the full resolved identity. -/
theorem follows_chain_per_user_key (env : PyEnv) (cfg : RuleSet)
    (reqs : List HTTPRequest) :
    ∀ rel ∈ (runLoader env cfg reqs).2, rel.rtype = "FOLLOWS" →
    ∃ pre ri mid rj post k ridi tsi ridj tsj,
      reqs = pre ++ ri :: (mid ++ rj :: post) ∧
      seqInfo env cfg ri = some (k, ridi, tsi) ∧
      seqInfo env cfg rj = some (k, ridj, tsj) ∧
      rel.source_id = ridi ∧ rel.target_id = ridj ∧
      ∀ rm ∈ mid, (seqInfo env cfg rm).map (fun x => x.1) ≠ some k := by
  intro rel hmem hty
  obtain ⟨pre, rj, post, k, ridj, tsj, hrs, hsj, htgt, hd⟩ :=
    runLoaderAux_follows env cfg reqs [] rel hmem hty
  rcases hd with ⟨pre1, ri, mid, ridi, tsi, hpre, hsi, hsrc, hmid⟩ |
    ⟨_, ts0, habs⟩
  · refine ⟨pre1, ri, mid, rj, post, k, ridi, tsi, ridj, tsj, ?_, hsi, hsj,
      hsrc, htgt, hmid⟩
    rw [hrs, hpre]
    simp [List.append_assoc]
  · simp [lookupT, lookupAssoc] at habs

/-- C2 counterexample: with a username-only cookie rule, a run ingesting a
request by `alice` and then a request by `bob` creates a FOLLOWS edge from
`alice`'s request to `bob`'s request although the two requests resolved
different user identities (usernames `alice` and `bob`); both merely share
the placeholder `user_id` value `unknown`. -/
theorem follows_links_distinct_usernames_cex :
    (runLoader exEnv exCfgU [exReqAlice, exReqBob]).2.filter
        (fun r => r.rtype = "FOLLOWS") =
      [mkFollows exEnv.parseTs
        ("request_" ++ toString (exHash
          ("http://unknown/" ++ "GET" ++ "2024-01-01T00:00:00Z")))
        ("request_" ++ toString (exHash
          ("http://unknown/" ++ "GET" ++ "2024-01-01T00:00:10Z")))
        "2024-01-01T00:00:10Z" "2024-01-01T00:00:00Z"] ∧
    ((scanNodes (parse_request exEnv exCfgU exReqAlice).nodes).1).map
        (fun n => n.id) =
      some ("request_" ++ toString (exHash
        ("http://unknown/" ++ "GET" ++ "2024-01-01T00:00:00Z"))) ∧
    ((scanNodes (parse_request exEnv exCfgU exReqBob).nodes).1).map
        (fun n => n.id) =
      some ("request_" ++ toString (exHash
        ("http://unknown/" ++ "GET" ++ "2024-01-01T00:00:10Z"))) ∧
    ((scanNodes (parse_request exEnv exCfgU exReqAlice).nodes).2).map
        (fun n => getStrProp n.props "username") = some (some "alice") ∧
    ((scanNodes (parse_request exEnv exCfgU exReqBob).nodes).2).map
        (fun n => getStrProp n.props "username") = some (some "bob") ∧
    ((scanNodes (parse_request exEnv exCfgU exReqAlice).nodes).2).map
        (fun n => n.id) = some "user_alice" ∧
    ((scanNodes (parse_request exEnv exCfgU exReqBob).nodes).2).map
        (fun n => n.id) = some "user_bob" := by
  refine ⟨by decide, by decide, by decide, by decide, by decide, by decide,
    by decide⟩

/-- Witness for the amended C2: in a two-request run by the same user the
FOLLOWS edge satisfies the chain characterisation. -/
theorem follows_chain_per_user_key_witness :
    (mkFollows exEnv.parseTs
        ("request_" ++ toString (exHash
          ("http://unknown/" ++ "GET" ++ "2024-01-01T00:00:00Z")))
        ("request_" ++ toString (exHash
          ("http://unknown/" ++ "GET" ++ "2024-01-01T00:00:10Z")))
        "2024-01-01T00:00:10Z" "2024-01-01T00:00:00Z" ∈
      (runLoader exEnv exCfgU [exReqAlice, exReqAliceLater]).2) ∧
    (∃ pre ri mid rj post k ridi tsi ridj tsj,
      [exReqAlice, exReqAliceLater] = pre ++ ri :: (mid ++ rj :: post) ∧
      seqInfo exEnv exCfgU ri = some (k, ridi, tsi) ∧
      seqInfo exEnv exCfgU rj = some (k, ridj, tsj) ∧
      (mkFollows exEnv.parseTs
        ("request_" ++ toString (exHash
          ("http://unknown/" ++ "GET" ++ "2024-01-01T00:00:00Z")))
        ("request_" ++ toString (exHash
          ("http://unknown/" ++ "GET" ++ "2024-01-01T00:00:10Z")))
        "2024-01-01T00:00:10Z" "2024-01-01T00:00:00Z").source_id = ridi ∧
      (mkFollows exEnv.parseTs
        ("request_" ++ toString (exHash
          ("http://unknown/" ++ "GET" ++ "2024-01-01T00:00:00Z")))
        ("request_" ++ toString (exHash
          ("http://unknown/" ++ "GET" ++ "2024-01-01T00:00:10Z")))
        "2024-01-01T00:00:10Z" "2024-01-01T00:00:00Z").target_id = ridj ∧
      ∀ rm ∈ mid, (seqInfo exEnv exCfgU rm).map (fun x => x.1) ≠ some k) :=
  ⟨by decide,
   follows_chain_per_user_key exEnv exCfgU [exReqAlice, exReqAliceLater] _
     (by decide) (by decide)⟩

/-! ### MERGE semantics of the persistence adapter -/

theorem mergeRel_nodes (s : Store) (r : GRel) :
    (mergeRel s r).nodes = s.nodes := by
  rw [mergeRel]
  split_ifs <;> rfl

theorem applyRels_nodes :
    ∀ (rels : List GRel) (s : Store), (rels.foldl mergeRel s).nodes = s.nodes := by
  intro rels
  induction rels with
  | nil => intro s; rfl
  | cons r rest ih =>
    intro s
    rw [List.foldl_cons, ih, mergeRel_nodes]

theorem applyGraph_nodes (s : Store) (ns : List GNode) (rs : List GRel) :
    (applyGraph s ns rs).nodes = (ns.foldl mergeNode s).nodes := by
  rw [applyGraph, applyRels_nodes]

theorem hasMatchB_eq_idLab (ms : List StoredNode) (n : GNode) :
    hasMatchB ms n =
      (idLab ms).any (fun p =>
        p.1 = n.id && n.labels.all (fun l => p.2.contains l)) := by
  induction ms with
  | nil => rfl
  | cons x rest ih =>
    simp only [hasMatchB, List.any_cons, idLab, List.map_cons] at ih ⊢
    rw [← ih]
    rfl

theorem hasMatchB_congr (ms ms' : List StoredNode) (n : GNode)
    (h : idLab ms = idLab ms') : hasMatchB ms n = hasMatchB ms' n := by
  rw [hasMatchB_eq_idLab, hasMatchB_eq_idLab, h]

theorem mergeNode_idLab_match (s : Store) (n : GNode)
    (h : hasMatchB s.nodes n = true) :
    idLab (mergeNode s n).nodes = idLab s.nodes := by
  rw [mergeNode, if_pos (show s.nodes.any (nodeMatches n) = true from h)]
  rw [idLab, idLab, List.map_map]
  apply List.map_congr_left
  intro x _
  by_cases hm : nodeMatches n x <;> simp [hm]

theorem mergeNode_nodes_nomatch (s : Store) (n : GNode)
    (h : hasMatchB s.nodes n = false) :
    (mergeNode s n).nodes = s.nodes ++ [⟨n.id, n.labels, n.props⟩] := by
  rw [mergeNode,
    if_neg (show ¬s.nodes.any (nodeMatches n) = true by
      rw [← hasMatchB]; simp [h])]

theorem mergeNode_hasMatch_self (s : Store) (n : GNode) :
    hasMatchB (mergeNode s n).nodes n = true := by
  by_cases h : hasMatchB s.nodes n
  · rw [hasMatchB_congr _ _ n (mergeNode_idLab_match s n h)]
    exact h
  · rw [mergeNode_nodes_nomatch s n (by simpa using h)]
    rw [hasMatchB, List.any_append]
    have : nodeMatches n ⟨n.id, n.labels, n.props⟩ = true := by
      simp [nodeMatches, List.all_eq_true]
    simp [this]

theorem mergeNode_hasMatch_mono (s : Store) (n m : GNode)
    (h : hasMatchB s.nodes m = true) :
    hasMatchB (mergeNode s n).nodes m = true := by
  by_cases hn : hasMatchB s.nodes n
  · rw [hasMatchB_congr _ _ m (mergeNode_idLab_match s n hn)]
    exact h
  · rw [mergeNode_nodes_nomatch s n (by simpa using hn)]
    rw [hasMatchB, List.any_append]
    rw [hasMatchB] at h
    simp [h]

theorem foldl_mergeNode_hasMatch_mono :
    ∀ (ns : List GNode) (s : Store) (m : GNode),
      hasMatchB s.nodes m = true →
      hasMatchB ((ns.foldl mergeNode s)).nodes m = true := by
  intro ns
  induction ns with
  | nil => intro s m h; exact h
  | cons n rest ih =>
    intro s m h
    rw [List.foldl_cons]
    exact ih (mergeNode s n) m (mergeNode_hasMatch_mono s n m h)

theorem foldl_mergeNode_hasMatch_all :
    ∀ (ns : List GNode) (s : Store),
      ∀ n ∈ ns, hasMatchB ((ns.foldl mergeNode s)).nodes n = true := by
  intro ns
  induction ns with
  | nil => intro s n h; simp at h
  | cons n0 rest ih =>
    intro s n h
    rcases List.mem_cons.mp h with h | h
    · subst h
      rw [List.foldl_cons]
      exact foldl_mergeNode_hasMatch_mono rest (mergeNode s n) n
        (mergeNode_hasMatch_self s n)
    · rw [List.foldl_cons]
      exact ih (mergeNode s n0) n h

theorem foldl_mergeNode_idLab_all :
    ∀ (ns : List GNode) (s : Store),
      (∀ n ∈ ns, hasMatchB s.nodes n = true) →
      idLab ((ns.foldl mergeNode s)).nodes = idLab s.nodes := by
  intro ns
  induction ns with
  | nil => intro s _; rfl
  | cons n0 rest ih =>
    intro s h
    rw [List.foldl_cons]
    rw [ih (mergeNode s n0) (fun n hn =>
      mergeNode_hasMatch_mono s n0 n (h n (List.mem_cons_of_mem n0 hn)))]
    exact mergeNode_idLab_match s n0 (h n0 (List.mem_cons_self n0 rest))

/-- C3 (amended): re-ingesting the identical request creates no node of any
kind — in particular no second Endpoint, User, or Resource node, and, since
the Request node id is derived from the identical (URL, method, timestamp)
triple, *also* no new Request-instance node: the MERGE matches the existing
node and only rewrites its properties.  The store's id/label skeleton after
the second ingest equals the one after the first. -/
theorem reingest_identical_request_adds_no_nodes (env : PyEnv)
    (cfg : RuleSet) (st : UserTable) (store : Store) (req : HTTPRequest) :
    idLab ((ingest env cfg (ingest env cfg st store req).1
        (ingest env cfg st store req).2 req).2).nodes =
      idLab ((ingest env cfg st store req).2).nodes := by
  have hnodes : ∀ st', (load_request env cfg st' req).2.1 =
      (parse_request env cfg req).nodes := by
    intro st'
    rw [load_request_eq]
  have hi : ∀ (st' : UserTable) (store' : Store),
      ((ingest env cfg st' store' req).2).nodes =
        (((parse_request env cfg req).nodes).foldl mergeNode store').nodes := by
    intro st' store'
    rw [ingest]
    dsimp only
    rw [applyGraph_nodes, hnodes]
  rw [hi, hi]
  have hall : ∀ n ∈ (parse_request env cfg req).nodes,
      hasMatchB ((ingest env cfg st store req).2).nodes n = true := by
    intro n hn
    rw [hi]
    exact foldl_mergeNode_hasMatch_all _ store n hn
  calc idLab (((parse_request env cfg req).nodes).foldl mergeNode
        (ingest env cfg st store req).2).nodes
      = idLab ((ingest env cfg st store req).2).nodes :=
        foldl_mergeNode_idLab_all _ _ hall
    _ = idLab (((parse_request env cfg req).nodes).foldl mergeNode store).nodes := by
        rw [hi]

/-- C3 counterexample: re-ingesting a request with the identical
(URL, method, timestamp) triple does *not* create a new, distinct
Request-instance node — after two ingests of the same request the store
holds exactly one Request-labelled node (the id hash of the identical
triple makes MERGE match the first node). -/
theorem reingest_no_new_request_node_cex :
    ((ingest exEnv exCfgMin
        (ingest exEnv exCfgMin [] ⟨[], []⟩ exReqMin).1
        (ingest exEnv exCfgMin [] ⟨[], []⟩ exReqMin).2 exReqMin).2.nodes.filter
      (fun n => n.labels.contains "Request")).length = 1 := by decide

/-! ### Parameter classification -/

theorem classify_parameter_aux_eq_find (l : List ParamTypeConfig)
    (name : String) :
    classify_parameter_aux l name =
      (l.find? (fun c =>
          c.ptype != "GENERIC" && matchesAnyPattern c.patterns name)).map
        (fun c => ⟨c.ptype, c.description⟩) := by
  induction l with
  | nil => rfl
  | cons c rest ih =>
    by_cases hg : c.ptype = "GENERIC"
    · simp [classify_parameter_aux, hg, List.find?_cons, ih]
    · by_cases hm : matchesAnyPattern c.patterns name
      · simp [classify_parameter_aux, hg, hm, List.find?_cons]
      · simp [classify_parameter_aux, hg, hm, List.find?_cons, ih]

/-- C4: parameter classification tries each configured type in declaration
order, skipping the GENERIC fallback, and returns the type of the first
configuration with a matching (valid) regex pattern; if no non-fallback
pattern matches the result is GENERIC.  The same classification function
determines the `type` property of every query-parameter node and of every
JSON body-field node. -/
theorem classify_parameter_first_match (env : PyEnv) (cfg : RuleSet)
    (name : String) :
    ((classify_parameter cfg name).ctype =
      (match cfg.parameter_patterns.find?
          (fun c => c.ptype != "GENERIC" &&
            matchesAnyPattern c.patterns name) with
       | some c => c.ptype
       | none => "GENERIC")) ∧
    (∀ (reqId : String) (vs : List String) (idx : Nat),
      ∀ n ∈ (paramValueLoop env cfg reqId name vs idx).1,
        getStrProp n.props "type" =
          some (classify_parameter cfg name).ctype) ∧
    (∀ (fields : List (String × Json)) (pid pre : String) (d : Nat),
      ∀ n ∈ (parse_body_fields env cfg fields pid pre d).1,
        ∃ key, getStrProp n.props "name" = some key ∧
          getStrProp n.props "type" =
            some (classify_parameter cfg key).ctype) := by
  refine ⟨?_, ?_, ?_⟩
  · rw [classify_parameter, classify_parameter_aux_eq_find]
    cases cfg.parameter_patterns.find?
        (fun c => c.ptype != "GENERIC" && matchesAnyPattern c.patterns name)
    · rfl
    · rfl
  · intro reqId vs
    induction vs with
    | nil => intro idx n hn; simp [paramValueLoop] at hn
    | cons v rest ih =>
      intro idx n hn
      simp only [paramValueLoop, List.mem_cons] at hn
      rcases hn with h | h
      · subst h; rfl
      · exact ih (idx + 1) n h
  · intro fields pid pre d
    induction fields, pid, pre, d using parse_body_fields.induct env cfg with
    | case1 fields pid pre d hd =>
      intro n hn
      rw [parse_body_fields.eq_def] at hn
      dsimp only at hn
      rw [if_pos hd] at hn
      simp at hn
    | case2 pid pre d hd =>
      intro n hn
      rw [parse_body_fields.eq_def] at hn
      dsimp only at hn
      rw [if_neg hd] at hn
      simp at hn
    | case3 pid pre d hd key value rest ih1 ih2 =>
      intro n hn
      rw [parse_body_fields.eq_def] at hn
      dsimp only at hn
      rw [if_neg hd] at hn
      cases value
      case obj fs =>
        simp only [List.mem_cons, List.mem_append] at hn
        rcases hn with h | h | h
        · subst h
          exact ⟨key, rfl, rfl⟩
        · exact ih1 n h
        · exact ih2 n h
      all_goals
        simp only [List.mem_cons, List.mem_append, List.not_mem_nil,
          false_or] at hn
        rcases hn with h | h
        · subst h
          exact ⟨key, rfl, rfl⟩
        · exact ih2 n h

/-- Witness for C4: with an `ID_REFERENCE` rule matching names containing
`id`, the name `user_id` classifies as `ID_REFERENCE`, `debug` falls back
to `GENERIC`, and the query-parameter node carries the classified type. -/
theorem classify_parameter_first_match_witness :
    (classify_parameter exCfgP "user_id").ctype = "ID_REFERENCE" ∧
    (classify_parameter exCfgP "debug").ctype = "GENERIC" ∧
    (GNode.mk ("param_" ++ toString (exHash ("rid" ++ "user_id" ++ "5" ++ "0")))
        ["Parameter", "ID_REFERENCE"]
        [("name", .str "user_id"), ("value", .str "5"),
         ("type", .str "ID_REFERENCE"), ("location", .str "query")] ∈
      (paramValueLoop exEnv exCfgP "rid" "user_id" ["5"] 0).1) ∧
    getStrProp (GNode.mk
        ("param_" ++ toString (exHash ("rid" ++ "user_id" ++ "5" ++ "0")))
        ["Parameter", "ID_REFERENCE"]
        [("name", .str "user_id"), ("value", .str "5"),
         ("type", .str "ID_REFERENCE"), ("location", .str "query")]).props
        "type" =
      some (classify_parameter exCfgP "user_id").ctype :=
  ⟨by decide, by decide, by decide,
   (classify_parameter_first_match exEnv exCfgP "user_id").2.1 "rid" ["5"] 0
     _ (by decide)⟩

/-- C5: body-field expansion is total (it raises no error on any JSON
body), creates exactly one HAS_FIELD relationship per BodyField node, every
relationship it emits carries a `depth` property between the entry depth
and 5, and a call at depth greater than 5 produces nothing (deeper nesting
is silently truncated). -/
theorem body_fields_depth_bounded (env : PyEnv) (cfg : RuleSet) :
    ∀ (fields : List (String × Json)) (pid pre : String) (d : Nat),
      ((parse_body_fields env cfg fields pid pre d).1.length =
        (parse_body_fields env cfg fields pid pre d).2.length) ∧
      (∀ r ∈ (parse_body_fields env cfg fields pid pre d).2,
        ∃ k : Nat, r.props = [("depth", Value.int (k : Int))] ∧
          d ≤ k ∧ k ≤ 5) ∧
      (5 < d → parse_body_fields env cfg fields pid pre d = ([], [])) := by
  intro fields pid pre d
  induction fields, pid, pre, d using parse_body_fields.induct env cfg with
  | case1 fields pid pre d hd =>
    have hempty : parse_body_fields env cfg fields pid pre d = ([], []) := by
      rw [parse_body_fields.eq_def]
      dsimp only
      rw [if_pos hd]
    refine ⟨by simp [hempty], ?_, fun _ => hempty⟩
    intro r hr
    rw [hempty] at hr
    simp at hr
  | case2 pid pre d hd =>
    have hempty : parse_body_fields env cfg [] pid pre d = ([], []) := by
      rw [parse_body_fields.eq_def]
      dsimp only
      rw [if_neg hd]
    refine ⟨by simp [hempty], ?_, fun h => absurd h hd⟩
    intro r hr
    rw [hempty] at hr
    simp at hr
  | case3 pid pre d hd key value rest ih1 ih2 =>
    have heq : parse_body_fields env cfg ((key, value) :: rest) pid pre d =
        (mkFieldNode env cfg pid pre key value ::
          ((match value with
            | .obj fs =>
              parse_body_fields env cfg fs (fieldIdOf env pid pre key)
                (fieldPathOf pre key) (d + 1)
            | _ => ([], [])).1 ++
           (parse_body_fields env cfg rest pid pre d).1),
         mkFieldRel env pid pre key d ::
          ((match value with
            | .obj fs =>
              parse_body_fields env cfg fs (fieldIdOf env pid pre key)
                (fieldPathOf pre key) (d + 1)
            | _ => ([], [])).2 ++
           (parse_body_fields env cfg rest pid pre d).2)) := by
      rw [parse_body_fields.eq_def]
      dsimp only
      rw [if_neg hd]
    refine ⟨?_, ?_, fun h => absurd h hd⟩
    · rw [heq]
      cases value
      case obj fs =>
        have h1 := ih1.1
        have h2 := ih2.1
        simp only [List.length_cons, List.length_append]
        omega
      all_goals
        have h2 := ih2.1
        simp [h2]
    · intro r hr
      rw [heq] at hr
      cases value
      case obj fs =>
        simp only [List.mem_cons, List.mem_append] at hr
        rcases hr with h | h | h
        · subst h
          exact ⟨d, rfl, le_refl d, by omega⟩
        · obtain ⟨k, hk, hk1, hk2⟩ := ih1.2.1 r h
          exact ⟨k, hk, by omega, hk2⟩
        · exact ih2.2.1 r h
      all_goals
        simp only [List.mem_cons, List.mem_append, List.not_mem_nil,
          false_or] at hr
        rcases hr with h | h
        · subst h
          exact ⟨d, rfl, le_refl d, by omega⟩
        · exact ih2.2.1 r h

/-- Witness for C5: a body nested eight levels deep, expanded from depth 6,
produces no nodes and no relationships. -/
theorem body_fields_depth_bounded_witness :
    5 < 6 ∧ parse_body_fields exEnv exCfgP exDeepFields "p" "" 6 = ([], []) :=
  ⟨by decide,
   (body_fields_depth_bounded exEnv exCfgP exDeepFields "p" "" 6).2.2
     (by decide)⟩

/-! ### Header nodes -/

/-- C6 (amended): every Header node's `value` property is the raw header
value truncated to 100 characters regardless of the matched category's
sensitivity; the `is_sensitive` flag is stored as its own property, but the
value itself is never redacted. -/
theorem header_value_truncated_never_redacted (env : PyEnv) (cfg : RuleSet)
    (reqId : String) :
    ∀ (hs : List (String × String)) (i0 : Nat),
      ∀ n ∈ (headersLoop env cfg reqId hs i0).1,
        ∃ hn hv c, (hn, hv) ∈ hs ∧ classify_header cfg hn = some c ∧
          n.props = [("name", .str hn), ("value", .str (hv.take 100)),
                     ("is_sensitive", .bool c.is_sensitive),
                     ("category", .str c.category)] := by
  intro hs
  induction hs with
  | nil => intro i0 n hn; simp [headersLoop] at hn
  | cons p rest ih =>
    intro i0 n hn
    rcases p with ⟨hname, hval⟩
    rcases hc : classify_header cfg hname with _ | c
    · rw [headersLoop, hc] at hn
      obtain ⟨a, b, c', hm, hcl, hp⟩ := ih (i0 + 1) n hn
      exact ⟨a, b, c', List.mem_cons_of_mem _ hm, hcl, hp⟩
    · rw [headersLoop, hc] at hn
      simp only [List.mem_cons] at hn
      rcases hn with h | h
      · subst h
        exact ⟨hname, hval, c, List.mem_cons_self _ _, hc, rfl⟩
      · obtain ⟨a, b, c', hm, hcl, hp⟩ := ih (i0 + 1) n h
        exact ⟨a, b, c', List.mem_cons_of_mem _ hm, hcl, hp⟩

set_option maxRecDepth 8000 in
/-- C6 counterexample: a header whose category is flagged sensitive
(`is_sensitive = true`) is stored with its raw secret value (truncated to
100 characters only) — it is not redacted, falsifying the claim's
redaction clause. -/
theorem sensitive_header_value_not_redacted_cex :
    (extract_headers exEnv exCfgH exReqH "rid").1 =
      [⟨"header_" ++ toString (exHash ("rid" ++ "Authorization" ++ "0")),
        ["Header", "auth"],
        [("name", .str "Authorization"),
         ("value", .str "secret-token-value"),
         ("is_sensitive", .bool true),
         ("category", .str "auth")]⟩] := by decide

set_option maxRecDepth 8000 in
/-- Witness for the amended C6: the sensitive Authorization header's node
carries the truncated raw value. -/
theorem header_value_truncated_never_redacted_witness :
    (GNode.mk ("header_" ++ toString (exHash ("rid" ++ "Authorization" ++ "0")))
        ["Header", "auth"]
        [("name", .str "Authorization"),
         ("value", .str "secret-token-value"),
         ("is_sensitive", .bool true),
         ("category", .str "auth")] ∈
      (headersLoop exEnv exCfgH "rid"
        [("Authorization", "secret-token-value")] 0).1) ∧
    (∃ hn hv c,
      (hn, hv) ∈ [("Authorization", "secret-token-value")] ∧
      classify_header exCfgH hn = some c ∧
      (GNode.mk ("header_" ++ toString (exHash ("rid" ++ "Authorization" ++ "0")))
        ["Header", "auth"]
        [("name", .str "Authorization"),
         ("value", .str "secret-token-value"),
         ("is_sensitive", .bool true),
         ("category", .str "auth")]).props =
        [("name", .str hn), ("value", .str (hv.take 100)),
         ("is_sensitive", .bool c.is_sensitive),
         ("category", .str c.category)]) :=
  ⟨by decide,
   header_value_truncated_never_redacted exEnv exCfgH "rid"
     [("Authorization", "secret-token-value")] 0 _ (by decide)⟩

/-- C10: a header matching no configured category is silently dropped: the
loop skips it (advancing only the enumeration index), exactly the matched
headers produce Header nodes (in bijection with their HAS_HEADER
relationships), and every produced node's name classifies to some
category. -/
theorem unmatched_headers_dropped (env : PyEnv) (cfg : RuleSet)
    (reqId : String) :
    (∀ (hn hv : String) (rest : List (String × String)) (i0 : Nat),
      classify_header cfg hn = none →
        headersLoop env cfg reqId ((hn, hv) :: rest) i0 =
          headersLoop env cfg reqId rest (i0 + 1)) ∧
    (∀ (hs : List (String × String)) (i0 : Nat),
      (headersLoop env cfg reqId hs i0).1.length =
        (hs.filter (fun p => (classify_header cfg p.1).isSome)).length ∧
      (headersLoop env cfg reqId hs i0).2.length =
        (hs.filter (fun p => (classify_header cfg p.1).isSome)).length ∧
      ∀ n ∈ (headersLoop env cfg reqId hs i0).1,
        ∃ hn c, getStrProp n.props "name" = some hn ∧
          classify_header cfg hn = some c) := by
  constructor
  · intro hn hv rest i0 hc
    rw [headersLoop, hc]
  · intro hs
    induction hs with
    | nil =>
      intro i0
      refine ⟨rfl, rfl, ?_⟩
      intro n h
      simp [headersLoop] at h
    | cons p rest ih =>
      intro i0
      rcases p with ⟨hname, hval⟩
      obtain ⟨h1, h2, h3⟩ := ih (i0 + 1)
      rcases hc : classify_header cfg hname with _ | c
      · rw [headersLoop, hc]
        refine ⟨?_, ?_, h3⟩
        · simpa [List.filter_cons, hc] using h1
        · simpa [List.filter_cons, hc] using h2
      · rw [headersLoop, hc]
        refine ⟨?_, ?_, ?_⟩
        · simpa [List.filter_cons, hc] using h1
        · simpa [List.filter_cons, hc] using h2
        · intro n hn
          simp only [List.mem_cons] at hn
          rcases hn with h | h
          · subst h
            exact ⟨hname, c, rfl, hc⟩
          · exact h3 n h

/-- Witness for C10: an unknown header is skipped entirely, producing no
node. -/
theorem unmatched_headers_dropped_witness :
    classify_header exCfgH "X-Unknown" = none ∧
    headersLoop exEnv exCfgH "rid" [("X-Unknown", "v")] 0 =
      headersLoop exEnv exCfgH "rid" [] 1 ∧
    (headersLoop exEnv exCfgH "rid" [("X-Unknown", "v")] 0).1.length = 0 :=
  ⟨by decide,
   (unmatched_headers_dropped exEnv exCfgH "rid").1 "X-Unknown" "v" [] 0
     (by decide),
   by decide⟩

/-! ### Resource extraction -/

theorem foldl_preserves {α σ : Type} (P : σ → Prop) (step : σ → α → σ)
    (h : ∀ s a, P s → P (step s a)) :
    ∀ (l : List α) (s : σ), P s → P (l.foldl step s) := by
  intro l
  induction l with
  | nil => intro s hs; exact hs
  | cons a rest ih => intro s hs; exact ih (step s a) (h s a hs)

theorem foundInsert_mem (f : List ((String × String) × String))
    (key x) (h : x ∈ f) : x ∈ foundInsert f key := by
  rw [foundInsert]
  split_ifs
  · exact h
  · exact List.mem_append_left _ h

theorem foundInsert_new (f : List ((String × String) × String)) (key)
    (e) (h : e ∈ foundInsert f key) : e ∈ f ∨ e = (key, "access") := by
  rw [foundInsert] at h
  split_ifs at h
  · exact Or.inl h
  · rcases List.mem_append.mp h with h | h
    · exact Or.inl h
    · exact Or.inr (List.mem_singleton.mp h)

theorem foundInsert_keys_nodup (f : List ((String × String) × String))
    (key) (h : (f.map (fun e => e.1)).Nodup) :
    ((foundInsert f key).map (fun e => e.1)).Nodup := by
  rw [foundInsert]
  split_ifs with hmem
  · exact h
  · rw [List.map_append]
    simp only [List.map_cons, List.map_nil]
    rw [List.nodup_append]
    refine ⟨h, List.nodup_singleton key, ?_⟩
    intro a ha hb
    rcases List.mem_map.mp ha with ⟨e, he, rfl⟩
    rw [List.mem_singleton] at hb
    exact hmem (by rw [List.any_eq_true]; exact ⟨e, he, by simp [hb]⟩)

theorem paramResourceScan_preserves (qp : List (String × List String))
    (pats : List (String × List String))
    (P : List ((String × String) × String) → Prop)
    (hP : ∀ f key, P f → P (foundInsert f key)) :
    ∀ f, P f → P (paramResourceScan qp pats f) := by
  intro f hf
  rw [paramResourceScan]
  refine foldl_preserves _ _ ?_ pats f hf
  intro s rt hs
  refine foldl_preserves _ _ ?_ rt.2 s hs
  intro s' pn hs'
  cases lookupAssoc qp pn
  · exact hs'
  · exact hP s' _ hs'

theorem resourceNodes_length (cfg : RuleSet) (reqId : String) :
    ∀ (found : List ((String × String) × String)),
      (resourceNodes cfg reqId found).1.length = found.length ∧
      (resourceNodes cfg reqId found).2.length = found.length := by
  intro found
  induction found with
  | nil => exact ⟨rfl, rfl⟩
  | cons e rest ih =>
    rcases e with ⟨⟨rtype, rid⟩, op⟩
    simp only [resourceNodes, List.length_cons]
    exact ⟨by rw [ih.1], by rw [ih.2]⟩

/-- C7: resource extraction applies the URL path-pattern rules in
declaration order with the first successful match-and-capture winning;
the operation is inferred from the upper-cased HTTP method via
GET→read, POST→create, PUT/PATCH→update, DELETE→delete, anything
else→access; the query-parameter scan adds only `(type, id)` pairs not
already captured (as `access` entries), so the entry keys are free of
duplicates and exactly one Resource entry (and node) exists per pair. -/
theorem resource_extraction_spec (env : PyEnv) (rc : ResourceExtraction)
    (req : HTTPRequest) (parsedUrl : UrlParts) :
    (∀ path : String,
      urlResource rc.url_patterns path =
        (rc.url_patterns.find? (fun c => (c.capture path).isSome)).bind
          (fun c => (c.capture path).map
            (fun rid => (c.resource_type, rid)))) ∧
    operationFor "GET" = "read" ∧
    operationFor "POST" = "create" ∧
    operationFor "PUT" = "update" ∧
    operationFor "PATCH" = "update" ∧
    operationFor "DELETE" = "delete" ∧
    (∀ m : String, m ∉ (["GET", "POST", "PUT", "PATCH", "DELETE"] :
        List String) → operationFor m = "access") ∧
    (∀ key, urlResource rc.url_patterns
        (if parsedUrl.path = "" then "/" else parsedUrl.path) = some key →
      (key, operationFor (strToUpper req.method)) ∈
        resourcesFound env rc req parsedUrl) ∧
    ((resourcesFound env rc req parsedUrl).map (fun e => e.1)).Nodup ∧
    (∀ e ∈ resourcesFound env rc req parsedUrl,
      (∃ key, urlResource rc.url_patterns
          (if parsedUrl.path = "" then "/" else parsedUrl.path) = some key ∧
        e = (key, operationFor (strToUpper req.method))) ∨
      e.2 = "access") ∧
    (∀ (cfg : RuleSet) (reqId : String)
        (found : List ((String × String) × String)),
      (resourceNodes cfg reqId found).1.length = found.length) := by
  have hrf : resourcesFound env rc req parsedUrl =
      paramResourceScan (env.parseQs parsedUrl.query) rc.parameter_patterns
        (match urlResource rc.url_patterns
            (if parsedUrl.path = "" then "/" else parsedUrl.path) with
         | some key => [(key, operationFor (strToUpper req.method))]
         | none => []) := by
    rw [resourcesFound]
  refine ⟨?_, rfl, rfl, rfl, rfl, rfl, ?_, ?_, ?_, ?_, ?_⟩
  · intro path
    induction rc.url_patterns with
    | nil => rfl
    | cons c rest ih =>
      rcases hc : c.capture path with _ | rid
      · simp [urlResource, List.find?_cons, hc, ih]
      · simp [urlResource, List.find?_cons, hc]
  · intro m hm
    simp only [List.mem_cons, List.not_mem_nil, or_false] at hm
    push_neg at hm
    obtain ⟨h1, h2, h3, h4, h5⟩ := hm
    rw [operationFor, if_neg h1, if_neg h2, if_neg h3, if_neg h4, if_neg h5]
  · intro key hk
    rw [hrf, hk]
    exact paramResourceScan_preserves _ _ _
      (fun f k h => foundInsert_mem f k _ h) _ (List.mem_singleton.mpr rfl)
  · rw [hrf]
    refine paramResourceScan_preserves _ _ _
      (fun f k h => foundInsert_keys_nodup f k h) _ ?_
    cases urlResource rc.url_patterns
        (if parsedUrl.path = "" then "/" else parsedUrl.path) <;> simp
  · intro e he
    rw [hrf] at he
    have := paramResourceScan_preserves (env.parseQs parsedUrl.query)
      rc.parameter_patterns
      (fun f => ∀ x ∈ f,
        (∃ key, urlResource rc.url_patterns
            (if parsedUrl.path = "" then "/" else parsedUrl.path) =
              some key ∧
          x = (key, operationFor (strToUpper req.method))) ∨
        x.2 = "access")
      (fun f k h x hx => by
        rcases foundInsert_new f k x hx with h' | h'
        · exact h x h'
        · right; rw [h'])
      (match urlResource rc.url_patterns
          (if parsedUrl.path = "" then "/" else parsedUrl.path) with
       | some key => [(key, operationFor (strToUpper req.method))]
       | none => [])
      ?_ e he
    · exact this
    · rcases hu : urlResource rc.url_patterns
          (if parsedUrl.path = "" then "/" else parsedUrl.path) with _ | key
      · intro x hx; simp at hx
      · intro x hx
        rw [List.mem_singleton] at hx
        exact Or.inl ⟨key, rfl, hx⟩
  · intro cfg reqId found
    exact (resourceNodes_length cfg reqId found).1

/-- Witness for C7: the example GET `/api/users/42?user_id=42` discovers
the `(user, 42)` pair twice (URL rule, then query scan) yet produces
exactly one entry, with operation `read`; an unmapped method falls back to
`access`. -/
theorem resource_extraction_spec_witness :
    ("OPTIONS" ∉ (["GET", "POST", "PUT", "PATCH", "DELETE"] :
        List String)) ∧
    operationFor "OPTIONS" = "access" ∧
    urlResource exRC.url_patterns "/api/users/42" = some ("user", "42") ∧
    ((("user", "42"), operationFor (strToUpper "GET")) ∈
      resourcesFound exEnvR exRC exReqR exUrlR) ∧
    ((resourcesFound exEnvR exRC exReqR exUrlR).map (fun e => e.1)).Nodup ∧
    resourcesFound exEnvR exRC exReqR exUrlR = [(("user", "42"), "read")] :=
  ⟨by decide,
   (resource_extraction_spec exEnvR exRC exReqR exUrlR).2.2.2.2.2.2.1
     "OPTIONS" (by decide),
   by decide,
   (resource_extraction_spec exEnvR exRC exReqR exUrlR).2.2.2.2.2.2.2.1
     ("user", "42") (by decide),
   (resource_extraction_spec exEnvR exRC exReqR exUrlR).2.2.2.2.2.2.2.2.1,
   by decide⟩

/-! ### HTTP start-line validation -/

theorem splitMax2_length (s : String) :
    (splitMax2 s).length = min (strSplitChar ' ' s).length 3 := by
  rw [splitMax2]
  rcases h : strSplitChar ' ' s with _ | ⟨x, rest⟩
  · rfl
  · rcases rest with _ | ⟨y, rest2⟩
    · rfl
    · rcases rest2 with _ | ⟨z, rest3⟩
      · simp
      · simp

theorem parse_http_request_none_iff (env : PyEnv) (raw ts : String) :
    (parse_http_request env raw ts).isNone ↔
      (strSplitChar ' ' ((strSplitCRLF raw).headD "")).length < 3 := by
  have hlen := splitMax2_length ((strSplitCRLF raw).headD "")
  rw [parse_http_request]
  dsimp only
  rcases h : splitMax2 ((strSplitCRLF raw).headD "") with
      _ | ⟨m, _ | ⟨p, _ | ⟨v, _ | ⟨w, rest⟩⟩⟩⟩ <;>
    rw [h] at hlen <;> simp at hlen ⊢ <;> omega

/-- C8 (amended): HTTP request parsing fails exactly when the start line,
split on spaces, has fewer than three fields (at most one space); a start
line with more than three space-separated fields is accepted, the
remainder folded into the version (Python `split(' ', 2)`).  A failed
parse never reaches the loader or the store. -/
theorem parse_fails_iff_start_line_short (env : PyEnv) (cfg : RuleSet)
    (st : UserTable) (store : Store) (raw ts : String) :
    ((parse_http_request env raw ts).isNone ↔
      (strSplitChar ' ' ((strSplitCRLF raw).headD "")).length < 3) ∧
    ((parse_http_request env raw ts).isNone = true →
      ingestRaw env cfg st store raw ts = none) := by
  refine ⟨parse_http_request_none_iff env raw ts, ?_⟩
  intro h
  rw [ingestRaw, Option.isNone_iff_eq_none.mp h]
  rfl

/-- C8 counterexample: a start line with four space-separated fields is
accepted — the extra token is folded into the version — falsifying the
claim that any start line without exactly the expected three fields is
rejected. -/
theorem start_line_extra_fields_accepted_cex :
    (parse_http_request exEnv "GET /p HTTP/1.1 extra\r\nHost: h\r\n\r\n"
        "t").isSome = true ∧
    (strSplitChar ' '
        ((strSplitCRLF "GET /p HTTP/1.1 extra\r\nHost: h\r\n\r\n").headD
          "")).length = 4 ∧
    (parse_http_request exEnv "GET /p HTTP/1.1 extra\r\nHost: h\r\n\r\n"
        "t").map (fun r => r.version) = some "HTTP/1.1 extra" := by
  refine ⟨by decide, by decide, by decide⟩

/-- Witness for the amended C8: a one-space start line is rejected and
nothing is ingested. -/
theorem parse_fails_iff_start_line_short_witness :
    (parse_http_request exEnv "GET /p" "t").isNone = true ∧
    ingestRaw exEnv exCfgMin [] ⟨[], []⟩ "GET /p" "t" = none :=
  ⟨(parse_fails_iff_start_line_short exEnv exCfgMin [] ⟨[], []⟩ "GET /p"
      "t").1.mpr (by decide),
   (parse_fails_iff_start_line_short exEnv exCfgMin [] ⟨[], []⟩ "GET /p"
      "t").2
     ((parse_fails_iff_start_line_short exEnv exCfgMin [] ⟨[], []⟩ "GET /p"
        "t").1.mpr (by decide))⟩

/-! ### The unserialised sequencer race -/

/-- C9: the per-user table's read-modify-write is not serialised
(`RuleBasedGraphLoader.__init__` creates no lock), and the admissible
interleaving in which both same-user requests read the table before either
writes emits zero FOLLOWS edges, while the serialised order emits exactly
one edge T1→T2 with `time_delta = 10`.  The claim's guarantee therefore
fails on the code. -/
theorem sequencer_race_drops_follows_edge :
    (seqSerial exParseTs [] exOpA exOpB).2 =
      [mkFollows exParseTs "request_T1" "request_T2"
        "2024-01-01T00:00:10Z" "2024-01-01T00:00:00Z"] ∧
    (seqRacy exParseTs [] exOpA exOpB).2 = [] ∧
    timeDelta exParseTs "2024-01-01T00:00:10Z" "2024-01-01T00:00:00Z" =
      10 := by
  refine ⟨by decide, by decide, by decide⟩
